import Mathlib

/-!
# Verification of the stackvm virtual machine (Go sources)

A shallow embedding of the `stackvm` package: the tagged `Value` model
(`value.go`), the error taxonomy (`errors.go`), the binary codec
(`encoding.go`), the standard opcode handlers (`ops_*.go`), the execution
engine (`executor.go`), the execution context exposed to custom handlers
(`registry.go`), and the assembler pipeline (`lexer.go`, `parser.go`,
`assembler.go`, `builder.go`).

Modelling conventions:
* Go's `float64` payloads are modelled by `Rat`.  Every conversion the
  verified claims exercise (`int32` → `float64`, literal comparisons with
  `0`) is exact on IEEE doubles, so the rational model agrees with the Go
  semantics there.  The eighteen `math.*` library functions are kept
  abstract in a `FloatOps` record; no claim depends on their values.
* Go machine integers are modelled as `Nat`/`Int` with explicit `% 2^32`
  (or two's-complement wrapping) exactly where the Go code converts or
  overflows; `uint8`/`int32`/`uint32` value spaces appear as side
  conditions (`opcode < 256`, `-2^31 ≤ operand < 2^31`) in theorems.
* The Go operand stack is a slice whose top is the last element; here the
  top of the stack is the HEAD of a `List Value`, so Go's
  `stack[len(stack)-1]` is the list head and `append(stack, v)` is `v :: ·`.
* Wall-clock timeout, context cancellation and `ExecutionTime` are external
  real-time features and are not part of the deterministic embedding; the
  remaining option fields (`MaxInstructions`, `MaxStackDepth`) are modelled
  exactly.  The `UserData` scratch map of the execution context (arbitrary
  host values) is likewise outside the model; no claim mentions it.
* The possibly non-terminating interpreter loop is embedded with explicit
  fuel: `executeLoop fuel` returns `none` when the fuel runs out, and every
  terminating Go execution is `some` for all sufficiently large fuel.
-/

namespace StackVM

/-! ## Errors (`errors.go`)

The standard errors are package-level sentinel values; `VMError` is the
wrapper struct carrying execution context.  A Go `error` value produced by
this package is either one of the sentinels or a `*VMError`. -/

/-- The sentinel error values of `errors.go` (plus the error a cancelled
`context.Context` would deliver). -/
inductive ErrKind where
  | stackOverflow
  | stackUnderflow
  | invalidMemoryAddress
  | readOnlyMemory
  | invalidInstruction
  | invalidOpcode
  | instructionLimit
  | divisionByZero
  | typeMismatch
  | timeout
  | invalidOperand
  | invalidProgram
  | unresolvedLabel
  | cancelled
  deriving DecidableEq, Repr

/-- The `VMError` struct of `errors.go`: an underlying error kind plus the
execution-context record. -/
structure VMErrorCtx where
  err : ErrKind
  pc : Int
  instructionCount : Nat
  stackDepth : Nat
  opcode : Nat
  message : String
  deriving DecidableEq, Repr

/-- A Go `error` value surfaced by the package: a raw sentinel or a
`*VMError` wrapper. -/
inductive GoError where
  | sentinel (k : ErrKind)
  | wrapped (w : VMErrorCtx)
  deriving DecidableEq, Repr

/-- Whether the error value is the `VMError` context wrapper. -/
def GoError.isWrapped : GoError → Bool
  | .sentinel _ => false
  | .wrapped _ => true

/-! ## Values (`value.go`)

`Value` is a type tag plus payload.  Float payloads are `Rat` (see the
module comment); custom payloads are host-owned and modelled by an opaque
`Nat` index into the host's value space. -/

/-- The tagged `Value` union of `value.go`. -/
inductive Value where
  | nil
  | float (x : Rat)
  | int (n : Int)
  | bool (b : Bool)
  | str (s : String)
  | custom (t : Nat) (payload : Nat)
  deriving DecidableEq, Repr

/-- `Value.IsTruthy` from `value.go`. -/
def Value.isTruthy : Value → Bool
  | .nil => false
  | .float x => x ≠ 0
  | .int n => n ≠ 0
  | .bool b => b
  | .str s => s ≠ ""
  | .custom _ _ => false

/-- `Value.Equal` from `value.go`: differing tags are never equal, same
tags compare payloads. -/
def Value.equal : Value → Value → Bool
  | .nil, .nil => true
  | .float x, .float y => x = y
  | .int n, .int m => n = m
  | .bool a, .bool b => a = b
  | .str s, .str t => s = t
  | .custom t d, .custom t' d' => t = t' && d = d'
  | _, _ => false

/-- `toFloat64` from `executor.go`: Float passes through, Int converts
(exactly, in this model), anything else is a type mismatch. -/
def toFloat64 : Value → Except ErrKind Rat
  | .float x => .ok x
  | .int n => .ok (n : Rat)
  | _ => .error .typeMismatch

/-- Go's `int64(f)` conversion on a `float64`: truncation toward zero. -/
def truncToInt (q : Rat) : Int :=
  if 0 ≤ q then q.floor else q.ceil

/-- `toInt64` from `executor.go`: Int passes through, Float truncates
toward zero, anything else is a type mismatch. -/
def toInt64 : Value → Except ErrKind Int
  | .int n => .ok n
  | .float x => .ok (truncToInt x)
  | _ => .error .typeMismatch

/-- `toBool` from `executor.go`. -/
def toBool (v : Value) : Bool := v.isTruthy

/-! ## Binary codec (`encoding.go`)

An instruction is one opcode byte and a little-endian `int32` operand;
a program is a little-endian `uint32` count followed by the 5-byte
records.  Bytes are `Nat`s (< 256 for well-formed data). -/

/-- An `Instruction`: `Opcode` is a `uint8` and `Operand` an `int32`; the
value-space bounds appear as `WFInst` side conditions where needed. -/
structure Inst where
  opcode : Nat
  operand : Int
  deriving DecidableEq, Repr

/-- The Go type invariant of `Instruction`: `uint8` opcode, `int32`
operand. -/
def WFInst (i : Inst) : Prop :=
  i.opcode < 256 ∧ -(2 ^ 31) ≤ i.operand ∧ i.operand < 2 ^ 31

instance : DecidablePred WFInst := fun i => by unfold WFInst; infer_instance

/-- Go's `uint32(x)` on an `int32`: the two's-complement bit pattern as an
unsigned value. -/
def u32ofInt (x : Int) : Nat := (x % (2 ^ 32 : Int)).toNat

/-- Go's `int32(u)` on a `uint32` bit pattern. -/
def i32ofNat (u : Nat) : Int :=
  if u % 2 ^ 32 < 2 ^ 31 then (u % 2 ^ 32 : Nat) else (u % 2 ^ 32 : Nat) - 2 ^ 32

/-- Go's `int32(x)` on a wider integer: two's-complement wrapping. -/
def i32wrap (x : Int) : Int := i32ofNat (u32ofInt x)

/-- `binary.LittleEndian.PutUint32`: the four little-endian bytes of
`n mod 2^32`. -/
def encodeU32LE (n : Nat) : List Nat :=
  [n % 256, n / 256 % 256, n / 65536 % 256, n / 16777216 % 256]

/-- `binary.LittleEndian.Uint32` on four bytes. -/
def decodeU32LE (b0 b1 b2 b3 : Nat) : Nat :=
  b0 + 256 * b1 + 65536 * b2 + 16777216 * b3

/-- The 5-byte record of one instruction: opcode byte, then the operand's
`uint32` bit pattern little-endian. -/
def encodeInst (i : Inst) : List Nat :=
  i.opcode :: encodeU32LE (u32ofInt i.operand)

/-- `EncodeProgram` from `encoding.go` (on a non-nil program): 4-byte
little-endian instruction count, then each instruction's 5-byte record. -/
def encodeProgram (p : List Inst) : List Nat :=
  encodeU32LE p.length ++ p.flatMap encodeInst

/-- How `DecodeProgram` can fail: the `ErrInvalidProgram` sentinel, or a Go
runtime panic from an out-of-bounds slice index. -/
inductive DecErr where
  | invalidProgram
  | panicOOB
  deriving DecidableEq, Repr

/-- The decode loop of `DecodeProgram`: read `count` 5-byte records
starting at `offset`.  Go indexes `data[offset]` and slices
`data[offset+1 : offset+5]` without its own bounds check, so running past
the end of the buffer is a runtime panic. -/
def readInstrs (data : List Nat) (offset : Nat) : Nat → Except DecErr (List Inst)
  | 0 => .ok []
  | n + 1 =>
    match data.drop offset with
    | b0 :: b1 :: b2 :: b3 :: b4 :: _ =>
      match readInstrs data (offset + 5) n with
      | .ok rest => .ok (⟨b0, i32ofNat (decodeU32LE b1 b2 b3 b4)⟩ :: rest)
      | .error e => .error e
    | _ => .error .panicOOB

/-- `DecodeProgram` from `encoding.go`.  Note the length validation
`expectedSize := 4 + instrCount*5` is `uint32` arithmetic in the source,
hence the `% 2^32`; `uint32(len(data))` likewise wraps. -/
def decodeProgram (data : List Nat) : Except DecErr (List Inst) :=
  if data.length < 4 then .error .invalidProgram
  else
    match data with
    | b0 :: b1 :: b2 :: b3 :: _ =>
      let instrCount := decodeU32LE b0 b1 b2 b3
      let expectedSize := (4 + instrCount * 5) % 2 ^ 32
      if data.length % 2 ^ 32 ≠ expectedSize then .error .invalidProgram
      else readInstrs data 4 instrCount
    | _ => .error .invalidProgram

/-! ## Standard opcode handlers (`ops_arithmetic.go`, `ops_logic.go`,
`ops_comparison.go`, `ops_math.go`)

Each handler takes the operand stack and returns the new stack plus an
optional error.  The Go stack keeps its top at the slice end; here the top
is the list head (see the module comment).  These functions only ever
return the package's sentinel errors, so their error type is `ErrKind`. -/

/-- The eighteen `math.*` library functions used by the math opcodes, kept
abstract (IEEE-754 transcendentals have no exact rational semantics). -/
structure FloatOps where
  sqrt : Rat → Rat
  sin : Rat → Rat
  cos : Rat → Rat
  tan : Rat → Rat
  asin : Rat → Rat
  acos : Rat → Rat
  atan : Rat → Rat
  atan2 : Rat → Rat → Rat
  log : Rat → Rat
  log10 : Rat → Rat
  exp : Rat → Rat
  pow : Rat → Rat → Rat
  fmin : Rat → Rat → Rat
  fmax : Rat → Rat → Rat
  floor : Rat → Rat
  ceil : Rat → Rat
  round : Rat → Rat
  trunc : Rat → Rat

/-- `numericOp` from `executor.go`: coerce both operands to float, apply
`op`, produce a Float. -/
def numericOp (a b : Value) (op : Rat → Rat → Rat) : Except ErrKind Value := do
  let x ← toFloat64 a
  let y ← toFloat64 b
  return .float (op x y)

/-- `compareOp` from `executor.go`. -/
def compareOp (a b : Value) (op : Rat → Rat → Bool) : Except ErrKind Value := do
  let x ← toFloat64 a
  let y ← toFloat64 b
  return .bool (op x y)

/-- `unaryOp` from `ops_arithmetic.go`. -/
def unaryOp (v : Value) (op : Rat → Rat) : Except ErrKind Value := do
  let x ← toFloat64 v
  return .float (op x)

/-- `opAdd`. -/
def opAdd : List Value → List Value × Option ErrKind
  | b :: a :: rest =>
    match numericOp a b (· + ·) with
    | .ok v => (v :: rest, none)
    | .error e => (rest, some e)
  | st => (st, some .stackUnderflow)

/-- `opSub`. -/
def opSub : List Value → List Value × Option ErrKind
  | b :: a :: rest =>
    match numericOp a b (· - ·) with
    | .ok v => (v :: rest, none)
    | .error e => (rest, some e)
  | st => (st, some .stackUnderflow)

/-- `opMul`. -/
def opMul : List Value → List Value × Option ErrKind
  | b :: a :: rest =>
    match numericOp a b (· * ·) with
    | .ok v => (v :: rest, none)
    | .error e => (rest, some e)
  | st => (st, some .stackUnderflow)

/-- `opDiv`: checks the divisor (top operand) for zero before dividing.
Note the operands are consumed before the zero check. -/
def opDiv : List Value → List Value × Option ErrKind
  | b :: a :: rest =>
    match toFloat64 b with
    | .error e => (rest, some e)
    | .ok bv =>
      if bv = 0 then (rest, some .divisionByZero)
      else
        match numericOp a b (· / ·) with
        | .ok v => (v :: rest, none)
        | .error e => (rest, some e)
  | st => (st, some .stackUnderflow)

/-- `opMod`: integer remainder (Go's truncated `%` on `int64`). -/
def opMod : List Value → List Value × Option ErrKind
  | b :: a :: rest =>
    match toInt64 a with
    | .error e => (rest, some e)
    | .ok av =>
      match toInt64 b with
      | .error e => (rest, some e)
      | .ok bv =>
        if bv = 0 then (rest, some .divisionByZero)
        else ((Value.int (av.tmod bv)) :: rest, none)
  | st => (st, some .stackUnderflow)

/-- `opNeg`. -/
def opNeg : List Value → List Value × Option ErrKind
  | a :: rest =>
    match unaryOp a (fun x => -x) with
    | .ok v => (v :: rest, none)
    | .error e => (rest, some e)
  | st => (st, some .stackUnderflow)

/-- `opAbs`. -/
def opAbs : List Value → List Value × Option ErrKind
  | a :: rest =>
    match toFloat64 a with
    | .error e => (rest, some e)
    | .ok av => ((Value.float (if av < 0 then -av else av)) :: rest, none)
  | st => (st, some .stackUnderflow)

/-- `opInc`. -/
def opInc : List Value → List Value × Option ErrKind
  | a :: rest =>
    match unaryOp a (fun x => x + 1) with
    | .ok v => (v :: rest, none)
    | .error e => (rest, some e)
  | st => (st, some .stackUnderflow)

/-- `opDec`. -/
def opDec : List Value → List Value × Option ErrKind
  | a :: rest =>
    match unaryOp a (fun x => x - 1) with
    | .ok v => (v :: rest, none)
    | .error e => (rest, some e)
  | st => (st, some .stackUnderflow)

/-- `opAnd` (`ops_logic.go`): truthiness conjunction. -/
def opAnd : List Value → List Value × Option ErrKind
  | b :: a :: rest => ((Value.bool (a.isTruthy && b.isTruthy)) :: rest, none)
  | st => (st, some .stackUnderflow)

/-- `opOr`. -/
def opOr : List Value → List Value × Option ErrKind
  | b :: a :: rest => ((Value.bool (a.isTruthy || b.isTruthy)) :: rest, none)
  | st => (st, some .stackUnderflow)

/-- `opNot`. -/
def opNot : List Value → List Value × Option ErrKind
  | a :: rest => ((Value.bool !a.isTruthy) :: rest, none)
  | st => (st, some .stackUnderflow)

/-- `opXor`. -/
def opXor : List Value → List Value × Option ErrKind
  | b :: a :: rest =>
    ((Value.bool ((a.isTruthy || b.isTruthy) && !(a.isTruthy && b.isTruthy))) :: rest, none)
  | st => (st, some .stackUnderflow)

/-- `opEq` (`ops_comparison.go`): type-strict value equality. -/
def opEq : List Value → List Value × Option ErrKind
  | b :: a :: rest => ((Value.bool (a.equal b)) :: rest, none)
  | st => (st, some .stackUnderflow)

/-- `opNe`. -/
def opNe : List Value → List Value × Option ErrKind
  | b :: a :: rest => ((Value.bool !(a.equal b)) :: rest, none)
  | st => (st, some .stackUnderflow)

/-- The shared body of `opGt`/`opLt`/`opGe`/`opLe`: coerce first-pushed
then second-pushed operand and compare. -/
def cmpFloatOp (op : Rat → Rat → Bool) : List Value → List Value × Option ErrKind
  | b :: a :: rest =>
    match toFloat64 a with
    | .error e => (rest, some e)
    | .ok av =>
      match toFloat64 b with
      | .error e => (rest, some e)
      | .ok bv => ((Value.bool (op av bv)) :: rest, none)
  | st => (st, some .stackUnderflow)

/-- `opGt`. -/
def opGt : List Value → List Value × Option ErrKind := cmpFloatOp (fun a b => b < a)

/-- `opLt`. -/
def opLt : List Value → List Value × Option ErrKind := cmpFloatOp (fun a b => a < b)

/-- `opGe`. -/
def opGe : List Value → List Value × Option ErrKind := cmpFloatOp (fun a b => b ≤ a)

/-- `opLe`. -/
def opLe : List Value → List Value × Option ErrKind := cmpFloatOp (fun a b => a ≤ b)

/-- `mathUnaryOp` (`ops_math.go`): pop one value, coerce to float, apply a
`math.*` function, push the Float result. -/
def mathUnaryOp (op : Rat → Rat) : List Value → List Value × Option ErrKind
  | a :: rest =>
    match toFloat64 a with
    | .error e => (rest, some e)
    | .ok av => ((Value.float (op av)) :: rest, none)
  | st => (st, some .stackUnderflow)

/-- The shared body of the two-operand math opcodes `ATAN2`/`POW`/`MIN`/
`MAX`: coercion order and argument order as in `ops_math.go` (for `ATAN2`
the source coerces `y` — the second-popped value — first; for the others it
coerces `a` first; both orders are captured by instantiating `f`). -/
def mathBinOp (f : Value → Value → Except ErrKind Rat) :
    List Value → List Value × Option ErrKind
  | b :: a :: rest =>
    match f a b with
    | .ok r => ((Value.float r) :: rest, none)
    | .error e => (rest, some e)
  | st => (st, some .stackUnderflow)

/-- `opAtan2`: pops `x` then `y`, coerces `y` first, computes
`math.Atan2(y, x)`. -/
def opAtan2 (fops : FloatOps) : List Value → List Value × Option ErrKind :=
  mathBinOp fun y x => do
    let yv ← toFloat64 y
    let xv ← toFloat64 x
    return fops.atan2 yv xv

/-- `opPow`. -/
def opPow (fops : FloatOps) : List Value → List Value × Option ErrKind :=
  mathBinOp fun a b => do
    let av ← toFloat64 a
    let bv ← toFloat64 b
    return fops.pow av bv

/-- `opMin`. -/
def opMin (fops : FloatOps) : List Value → List Value × Option ErrKind :=
  mathBinOp fun a b => do
    let av ← toFloat64 a
    let bv ← toFloat64 b
    return fops.fmin av bv

/-- `opMax`. -/
def opMax (fops : FloatOps) : List Value → List Value × Option ErrKind :=
  mathBinOp fun a b => do
    let av ← toFloat64 a
    let bv ← toFloat64 b
    return fops.fmax av bv

/-! ## Memory (`memory.go`)

`SimpleMemory`, the standard `Memory` implementation: a fixed-size vector
of values, bounds-checked. -/

/-- `SimpleMemory`. -/
structure Mem where
  data : List Value
  deriving DecidableEq, Repr

/-- `SimpleMemory.Load`. -/
def memLoad (m : Mem) (i : Int) : Value × Option ErrKind :=
  if i < 0 ∨ (m.data.length : Int) ≤ i then (.nil, some .invalidMemoryAddress)
  else (m.data.getD i.toNat .nil, none)

/-- `SimpleMemory.Store`: on a bad index the memory is unchanged. -/
def memStore (m : Mem) (i : Int) (v : Value) : Mem × Option ErrKind :=
  if i < 0 ∨ (m.data.length : Int) ≤ i then (m, some .invalidMemoryAddress)
  else (⟨m.data.set i.toNat v⟩, none)

/-! ## Execution engine state (`executor.go`, `vm.go`) -/

/-- The mutable fields of the `executor` struct (the `config` field is
passed separately).  `instrCount` is a `uint32`, so increments wrap
`% 2^32`. -/
structure ExecState where
  stack : List Value
  pc : Int
  halted : Bool
  instrCount : Nat
  deriving DecidableEq, Repr

/-- A custom instruction handler's interaction with the VM, as a tree over
the `ExecutionContext` interface (`context.go`): each constructor is one
context method, whose continuation receives exactly what the Go method
returns.  Any terminating Go handler body denotes such a tree (its own
computation lives inside the continuations).  The `UserData` map is outside
the model (see the module comment). -/
inductive HProg where
  | done (e : Option GoError)
  | push (v : Value) (k : Option GoError → HProg)
  | pop (k : Value × Option GoError → HProg)
  | peek (k : Value × Option GoError → HProg)
  | peekN (n : Int) (k : Value × Option GoError → HProg)
  | depth (k : Nat → HProg)
  | getPC (k : Int → HProg)
  | setPC (t : Int) (k : HProg)
  | jump (t : Int) (k : HProg)
  | memLoadOp (i : Int) (k : Value × Option GoError → HProg)
  | memStoreOp (i : Int) (v : Value) (k : Option GoError → HProg)
  | memSize (k : Nat → HProg)
  | count (k : Nat → HProg)
  | incCount (k : HProg)
  | halt (k : HProg)
  | isHalted (k : Bool → HProg)

/-- A custom handler (`InstructionHandler.Execute`): its behaviour as a
function of the `int32` operand. -/
def Handler := Int → HProg

/-- The instruction registry as consulted by dispatch
(`InstructionRegistry.Get`). -/
def Registry := Nat → Option Handler

/-- The `Config` struct of `vm.go` (the `ValueConverter` extension point is
nil throughout the package and omitted). -/
structure VMConfig where
  stackSize : Int
  defaultInstrLimit : Nat
  registry : Option Registry

/-- The `ExecuteOptions` of `vm.go`; `Timeout` and `Context` are external
real-time features outside the deterministic embedding. -/
structure ExecOpts where
  maxInstructions : Nat
  maxStackDepth : Int

/-- The `Result` struct of `vm.go` (`ExecutionTime` omitted, wall-clock). -/
structure GoResult where
  instructionCount : Nat
  stackDepth : Nat
  halted : Bool
  error : Option GoError
  deriving DecidableEq, Repr

/-- Runs a handler interaction tree against the VM state, mirroring the
`executionContextImpl` methods of `registry.go`.  Note `Push` checks the
stack against `config.StackSize` (not the per-execution limit). -/
def runHandler (cfg : VMConfig) (s : ExecState) (m : Mem) :
    HProg → (ExecState × Mem) × Option GoError
  | .done e => ((s, m), e)
  | .push v k =>
    if (s.stack.length : Int) ≥ cfg.stackSize then
      runHandler cfg s m (k (some (.sentinel .stackOverflow)))
    else runHandler cfg { s with stack := v :: s.stack } m (k none)
  | .pop k =>
    match s.stack with
    | [] => runHandler cfg s m (k (.nil, some (.sentinel .stackUnderflow)))
    | v :: rest => runHandler cfg { s with stack := rest } m (k (v, none))
  | .peek k =>
    match s.stack with
    | [] => runHandler cfg s m (k (.nil, some (.sentinel .stackUnderflow)))
    | v :: _ => runHandler cfg s m (k (v, none))
  | .peekN n k =>
    if n < 0 ∨ (s.stack.length : Int) ≤ n then
      runHandler cfg s m (k (.nil, some (.sentinel .stackUnderflow)))
    else runHandler cfg s m (k (s.stack.getD n.toNat .nil, none))
  | .depth k => runHandler cfg s m (k s.stack.length)
  | .getPC k => runHandler cfg s m (k s.pc)
  | .setPC t k => runHandler cfg { s with pc := t } m k
  | .jump t k => runHandler cfg { s with pc := t } m k
  | .memLoadOp i k =>
    let (v, e) := memLoad m i
    runHandler cfg s m (k (v, e.map .sentinel))
  | .memStoreOp i v k =>
    let (m', e) := memStore m i v
    runHandler cfg s m' (k (e.map .sentinel))
  | .memSize k => runHandler cfg s m (k m.data.length)
  | .count k => runHandler cfg s m (k s.instrCount)
  | .incCount k => runHandler cfg { s with instrCount := (s.instrCount + 1) % 2 ^ 32 } m k
  | .halt k => runHandler cfg { s with halted := true } m k
  | .isHalted k => runHandler cfg s m (k s.halted)

/-- `executor.push`: bounds the stack by the per-execution
`maxStackDepth`. -/
def epush (maxD : Int) (v : Value) (st : List Value) : List Value × Option ErrKind :=
  if (st.length : Int) ≥ maxD then (st, some .stackOverflow) else (v :: st, none)

/-- The shared tail of the dispatch arms that run an opcode handler over
the stack: `e.stack, err = op(e.stack); ...; return err`. -/
def stackOpStep (s : ExecState) (m : Mem) (r : List Value × Option ErrKind) :
    (ExecState × Mem) × Option GoError :=
  (({ s with stack := r.1 }, m), r.2.map .sentinel)

/-- `executor.executeInstruction`: the dispatch switch (Go's `switch` on
constant opcode cases, embedded as a chain of equality tests).  Arms are in
source order; opcode literals are the constants of `instruction.go`. -/
def executeInstruction (cfg : VMConfig) (fops : FloatOps) (inst : Inst) (maxD : Int)
    (s : ExecState) (m : Mem) : (ExecState × Mem) × Option GoError :=
  -- PUSH: push Float(float64(operand))
  if inst.opcode = 0 then stackOpStep s m (epush maxD (.float (inst.operand : Rat)) s.stack)
  -- PUSHI: push Int(int64(operand))
  else if inst.opcode = 1 then stackOpStep s m (epush maxD (.int inst.operand) s.stack)
  -- POP
  else if inst.opcode = 2 then
    match s.stack with
    | [] => ((s, m), some (.sentinel .stackUnderflow))
    | _ :: rest => (({ s with stack := rest }, m), none)
  -- DUP: peek then push
  else if inst.opcode = 3 then
    match s.stack with
    | [] => ((s, m), some (.sentinel .stackUnderflow))
    | v :: _ => stackOpStep s m (epush maxD v s.stack)
  -- SWAP
  else if inst.opcode = 4 then
    match s.stack with
    | b :: a :: rest => (({ s with stack := a :: b :: rest }, m), none)
    | _ => ((s, m), some (.sentinel .stackUnderflow))
  -- OVER: push a copy of the second value
  else if inst.opcode = 5 then
    match s.stack with
    | _ :: a :: _ => stackOpStep s m (epush maxD a s.stack)
    | _ => ((s, m), some (.sentinel .stackUnderflow))
  -- ROT
  else if inst.opcode = 6 then
    match s.stack with
    | x0 :: x1 :: x2 :: rest => (({ s with stack := x2 :: x0 :: x1 :: rest }, m), none)
    | _ => ((s, m), some (.sentinel .stackUnderflow))
  else if inst.opcode = 16 then stackOpStep s m (opAdd s.stack)
  else if inst.opcode = 17 then stackOpStep s m (opSub s.stack)
  else if inst.opcode = 18 then stackOpStep s m (opMul s.stack)
  else if inst.opcode = 19 then stackOpStep s m (opDiv s.stack)
  else if inst.opcode = 20 then stackOpStep s m (opMod s.stack)
  else if inst.opcode = 21 then stackOpStep s m (opNeg s.stack)
  else if inst.opcode = 22 then stackOpStep s m (opAbs s.stack)
  else if inst.opcode = 23 then stackOpStep s m (opInc s.stack)
  else if inst.opcode = 24 then stackOpStep s m (opDec s.stack)
  else if inst.opcode = 32 then stackOpStep s m (opAnd s.stack)
  else if inst.opcode = 33 then stackOpStep s m (opOr s.stack)
  else if inst.opcode = 34 then stackOpStep s m (opNot s.stack)
  else if inst.opcode = 35 then stackOpStep s m (opXor s.stack)
  else if inst.opcode = 40 then stackOpStep s m (opEq s.stack)
  else if inst.opcode = 41 then stackOpStep s m (opNe s.stack)
  else if inst.opcode = 42 then stackOpStep s m (opGt s.stack)
  else if inst.opcode = 43 then stackOpStep s m (opLt s.stack)
  else if inst.opcode = 44 then stackOpStep s m (opGe s.stack)
  else if inst.opcode = 45 then stackOpStep s m (opLe s.stack)
  else if inst.opcode = 64 then stackOpStep s m (mathUnaryOp fops.sqrt s.stack)
  else if inst.opcode = 65 then stackOpStep s m (mathUnaryOp fops.sin s.stack)
  else if inst.opcode = 66 then stackOpStep s m (mathUnaryOp fops.cos s.stack)
  else if inst.opcode = 67 then stackOpStep s m (mathUnaryOp fops.tan s.stack)
  else if inst.opcode = 68 then stackOpStep s m (mathUnaryOp fops.asin s.stack)
  else if inst.opcode = 69 then stackOpStep s m (mathUnaryOp fops.acos s.stack)
  else if inst.opcode = 70 then stackOpStep s m (mathUnaryOp fops.atan s.stack)
  else if inst.opcode = 71 then stackOpStep s m (opAtan2 fops s.stack)
  else if inst.opcode = 72 then stackOpStep s m (mathUnaryOp fops.log s.stack)
  else if inst.opcode = 73 then stackOpStep s m (mathUnaryOp fops.log10 s.stack)
  else if inst.opcode = 74 then stackOpStep s m (mathUnaryOp fops.exp s.stack)
  else if inst.opcode = 75 then stackOpStep s m (opPow fops s.stack)
  else if inst.opcode = 76 then stackOpStep s m (opMin fops s.stack)
  else if inst.opcode = 77 then stackOpStep s m (opMax fops s.stack)
  else if inst.opcode = 78 then stackOpStep s m (mathUnaryOp fops.floor s.stack)
  else if inst.opcode = 79 then stackOpStep s m (mathUnaryOp fops.ceil s.stack)
  else if inst.opcode = 80 then stackOpStep s m (mathUnaryOp fops.round s.stack)
  else if inst.opcode = 81 then stackOpStep s m (mathUnaryOp fops.trunc s.stack)
  -- LOAD k
  else if inst.opcode = 48 then
    match (memLoad m inst.operand).2 with
    | some e => ((s, m), some (.sentinel e))
    | none => stackOpStep s m (epush maxD (memLoad m inst.operand).1 s.stack)
  -- STORE k
  else if inst.opcode = 49 then
    match s.stack with
    | [] => ((s, m), some (.sentinel .stackUnderflow))
    | v :: rest =>
      (({ s with stack := rest }, (memStore m inst.operand v).1),
        (memStore m inst.operand v).2.map .sentinel)
  -- LOADD
  else if inst.opcode = 50 then
    match s.stack with
    | [] => ((s, m), some (.sentinel .stackUnderflow))
    | addr :: rest =>
      match toInt64 addr with
      | .error e => (({ s with stack := rest }, m), some (.sentinel e))
      | .ok ai =>
        match (memLoad m ai).2 with
        | some e => (({ s with stack := rest }, m), some (.sentinel e))
        | none => stackOpStep s m (epush maxD (memLoad m ai).1 rest)
  -- STORED: pop value, then pop index
  else if inst.opcode = 51 then
    match s.stack with
    | [] => ((s, m), some (.sentinel .stackUnderflow))
    | v :: rest =>
      match rest with
      | [] => (({ s with stack := rest }, m), some (.sentinel .stackUnderflow))
      | addr :: rest2 =>
        match toInt64 addr with
        | .error e => (({ s with stack := rest2 }, m), some (.sentinel e))
        | .ok ai =>
          (({ s with stack := rest2 }, (memStore m ai v).1),
            (memStore m ai v).2.map .sentinel)
  -- JMP: pc := target - 1 (the main loop increments)
  else if inst.opcode = 56 then (({ s with pc := inst.operand - 1 }, m), none)
  -- JMPZ
  else if inst.opcode = 57 then
    match s.stack with
    | [] => ((s, m), some (.sentinel .stackUnderflow))
    | v :: rest =>
      if !toBool v then (({ s with stack := rest, pc := inst.operand - 1 }, m), none)
      else (({ s with stack := rest }, m), none)
  -- JMPNZ
  else if inst.opcode = 58 then
    match s.stack with
    | [] => ((s, m), some (.sentinel .stackUnderflow))
    | v :: rest =>
      if toBool v then (({ s with stack := rest, pc := inst.operand - 1 }, m), none)
      else (({ s with stack := rest }, m), none)
  -- CALL: no call stack yet; acts as JMP
  else if inst.opcode = 59 then (({ s with pc := inst.operand - 1 }, m), none)
  -- RET: no call stack yet; acts as HALT
  else if inst.opcode = 60 then (({ s with halted := true }, m), none)
  -- HALT
  else if inst.opcode = 61 then (({ s with halted := true }, m), none)
  -- NOP
  else if inst.opcode = 62 then ((s, m), none)
  -- custom instructions, else ErrInvalidOpcode
  else if inst.opcode ≥ 128 then
    match cfg.registry with
    | some reg =>
      match reg inst.opcode with
      | some h => runHandler cfg s m (h inst.operand)
      | none => ((s, m), some (.sentinel .invalidOpcode))
    | none => ((s, m), some (.sentinel .invalidOpcode))
  else ((s, m), some (.sentinel .invalidOpcode))

/-- One check-fetch-dispatch iteration of the `Execute` main loop either
produces the final `Result` (with the final state) or continues. -/
inductive LoopOut where
  | ret (r : GoResult) (s : ExecState) (m : Mem)
  | next (s : ExecState) (m : Mem)

/-- The body of the `for` loop in `executor.Execute`, including the loop
condition, the instruction-limit check, fetch, counter increment, dispatch,
the conditional `pc++`, and — on loop exit — the end-of-program halted
fix-up and the success `Result`.  (The timeout and cancellation polls sit
between the limit check and the fetch in the source; they are external
real-time events outside this embedding.) -/
def loopBody (cfg : VMConfig) (fops : FloatOps) (instrs : List Inst) (maxI : Nat)
    (maxD : Int) (s : ExecState) (m : Mem) : LoopOut :=
  if !s.halted ∧ 0 ≤ s.pc ∧ s.pc < (instrs.length : Int) then
    if maxI > 0 ∧ s.instrCount ≥ maxI then
      .ret ⟨s.instrCount, s.stack.length, false, some (.sentinel .instructionLimit)⟩ s m
    else
      match executeInstruction cfg fops (instrs.getD s.pc.toNat ⟨62, 0⟩) maxD
          { s with instrCount := (s.instrCount + 1) % 2 ^ 32 } m with
      | ((s', m'), some e) =>
        .ret ⟨s'.instrCount, s'.stack.length, s'.halted, some e⟩ s' m'
      | ((s', m'), none) =>
        .next (if !s'.halted then { s' with pc := s'.pc + 1 } else s') m'
  else
    if !s.halted ∧ (instrs.length : Int) ≤ s.pc then
      .ret ⟨s.instrCount, s.stack.length, true, none⟩ { s with halted := true } m
    else
      .ret ⟨s.instrCount, s.stack.length, s.halted, none⟩ s m

/-- The `Execute` main loop, fuel-indexed: `none` means the fuel ran out
(the Go loop would still be running). -/
def executeLoop (cfg : VMConfig) (fops : FloatOps) (instrs : List Inst) (maxI : Nat)
    (maxD : Int) : Nat → ExecState → Mem → Option (GoResult × ExecState × Mem)
  | 0, _, _ => none
  | fuel + 1, s, m =>
    match loopBody cfg fops instrs maxI maxD s m with
    | .ret r s' m' => some (r, s', m')
    | .next s' m' => executeLoop cfg fops instrs maxI maxD fuel s' m'

/-- The effective instruction limit of an execution (`executor.Execute`):
the option value, or the config default when the option is zero. -/
def effMaxInstructions (cfg : VMConfig) (opts : ExecOpts) : Nat :=
  if opts.maxInstructions = 0 ∧ cfg.defaultInstrLimit > 0 then cfg.defaultInstrLimit
  else opts.maxInstructions

/-- The effective stack-depth limit of an execution (`executor.Execute`):
the option value, or `config.StackSize` when the option is `≤ 0`. -/
def effMaxStackDepth (cfg : VMConfig) (opts : ExecOpts) : Int :=
  if opts.maxStackDepth ≤ 0 then cfg.stackSize else opts.maxStackDepth

/-- `executor.Execute`: resets the mutable state, applies the options, and
runs the main loop. -/
def execute (cfg : VMConfig) (fops : FloatOps) (fuel : Nat) (s : ExecState)
    (prog : List Inst) (m : Mem) (opts : ExecOpts) :
    Option (GoResult × ExecState × Mem) :=
  let s := { s with stack := [], pc := 0, halted := false, instrCount := 0 }
  executeLoop cfg fops prog (effMaxInstructions cfg opts) (effMaxStackDepth cfg opts)
    fuel s m

/-- `executor.Reset`. -/
def resetState (s : ExecState) : ExecState :=
  { s with stack := [], pc := 0, halted := false, instrCount := 0 }

/-- `newExecutor`: defaults a non-positive `StackSize` to 256. -/
def newExecutorConfig (cfg : VMConfig) : VMConfig :=
  if cfg.stackSize ≤ 0 then { cfg with stackSize := 256 } else cfg

/-- The state of a freshly constructed executor. -/
def freshState : ExecState := ⟨[], 0, false, 0⟩

/-! ## Assembler (`lexer.go`, `parser.go`, `assembler.go`, `builder.go`)

The lexer and parser are embedded over `List Char`/token lists with fuel
(`source length + 1` calls always suffice: every call consumes at least one
character/token).  Line/column bookkeeping is omitted: the public
`Assemble` wrapper (`assembler.wrapError`) zeroes `Line`/`Column` anyway,
and no claim concerns positions.  Error messages are replaced by
constructors of `AsmErr`, one per distinct `fmt.Errorf` site that a claim
can observe. -/

/-- Assembly errors, one constructor per failure site. -/
inductive AsmErr where
  | lexBadChar
  | lexBadNumber
  | parseUnexpected
  | parseBadNumber
  | unknownOpcode (s : String)
  | notImplemented (op : Nat)
  | notImplementedTrunc
  | requiresOperand (op : Nat)
  | wrongOperandKind (op : Nat)
  | customNeedsNumber
  | noOperandAllowed (op : Nat)
  | unresolvedLabel (s : String)
  | fuelExhausted
  deriving DecidableEq, Repr

/-- Lexical tokens (`lexer.go`); comment tokens are skipped, not emitted. -/
inductive Tok where
  | newline
  | ident (s : String)
  | labelDef (s : String)
  | number (s : String)
  | eof
  deriving DecidableEq, Repr

/-- `unicode.IsDigit` restricted to the ASCII bytes the lexer feeds it. -/
def goIsDigit (c : Char) : Bool := '0' ≤ c && c ≤ '9'

/-- `unicode.IsLetter` restricted to ASCII. -/
def goIsLetterA (c : Char) : Bool := ('a' ≤ c && c ≤ 'z') || ('A' ≤ c && c ≤ 'Z')

/-- An identifier continuation character (letter, digit or `_`). -/
def isIdentChar (c : Char) : Bool := goIsLetterA c || goIsDigit c || c = '_'

/-- A number-literal continuation character (digit or `.`). -/
def isNumChar (c : Char) : Bool := goIsDigit c || c = '.'

/-- The value of a non-empty all-digit run. -/
def digitsVal (cs : List Char) : Option Nat :=
  if cs = [] || !cs.all goIsDigit then none
  else some (cs.foldl (fun a c => a * 10 + (c.toNat - 48)) 0)

/-- `strconv.ParseInt(s, 10, 64)`: optional sign, digits, 64-bit range. -/
def parseGoInt (cs : List Char) : Option Int :=
  let (neg, ds) : Bool × List Char := match cs with
    | '-' :: r => (true, r)
    | r => (false, r)
  match digitsVal ds with
  | none => none
  | some n =>
    let v : Int := if neg then -(n : Int) else n
    if v < -(2 ^ 63) ∨ v ≥ 2 ^ 63 then none else some v

/-- `strconv.ParseFloat` on the digit-and-dot strings the lexer produces:
optional sign, digits, at most one dot.  The decimal value is exact here;
IEEE rounding to the nearest double is outside the model (no claim
observes a float literal's value). -/
def parseGoFloat (cs : List Char) : Option Rat :=
  let (neg, r) : Bool × List Char := match cs with
    | '-' :: rest => (true, rest)
    | rest => (false, rest)
  let ip := r.takeWhile (fun c => c ≠ '.')
  let fracOpt : Option (List Char) := match r.drop ip.length with
    | [] => some []
    | '.' :: f => if f.all goIsDigit then some f else none
    | _ => none
  match fracOpt with
  | none => none
  | some f =>
    if ip.all goIsDigit ∧ (ip ≠ [] ∨ f ≠ []) then
      let ipv : Nat := ip.foldl (fun a c => a * 10 + (c.toNat - 48)) 0
      let fv : Nat := f.foldl (fun a c => a * 10 + (c.toNat - 48)) 0
      let q : Rat := (ipv : Rat) + (fv : Rat) / ((10 : Rat) ^ f.length)
      some (if neg then -q else q)
    else none

/-- `Lexer.Tokenize`, fuelled: whitespace skipped, newlines emitted,
comments (`;`/`#`) skipped to end of line, numbers validated as in
`scanNumber`, identifiers vs. label definitions distinguished by a
trailing `:`. -/
def lexChars : Nat → List Char → Except AsmErr (List Tok)
  | 0, _ => .error .fuelExhausted
  | _ + 1, [] => .ok [.eof]
  | f + 1, c :: cs =>
    if c = ' ' ∨ c = '\t' ∨ c = '\r' then lexChars f cs
    else if c = '\n' then do
      let ts ← lexChars f cs
      return .newline :: ts
    else if c = ';' ∨ c = '#' then
      lexChars f ((c :: cs).dropWhile (fun ch => ch ≠ '\n'))
    else if goIsDigit c || (c = '-' && (match cs with | d :: _ => goIsDigit d | [] => false)) then
      let (sign, rest0) : List Char × List Char :=
        if c = '-' then ([c], cs) else ([], c :: cs)
      let digs := rest0.takeWhile isNumChar
      let val := sign ++ digs
      let valid := if val.contains '.' then (parseGoFloat val).isSome
                   else (parseGoInt val).isSome
      if valid then do
        let ts ← lexChars f (rest0.drop digs.length)
        return .number (String.mk val) :: ts
      else .error .lexBadNumber
    else if goIsLetterA c ∨ c = '_' then
      let idchars := (c :: cs).takeWhile isIdentChar
      match (c :: cs).drop idchars.length with
      | ':' :: rest2 => do
        let ts ← lexChars f rest2
        return .labelDef (String.mk idchars) :: ts
      | rest => do
        let ts ← lexChars f rest
        return .ident (String.mk idchars) :: ts
    else .error .lexBadChar

/-- `Lexer.Tokenize` on a source string. -/
def tokenize (src : String) : Except AsmErr (List Tok) :=
  lexChars (src.length + 1) src.data

/-- A parsed operand (`parser.go`'s `Operand` struct: `Number`,
`FloatValue`, `IsFloat`, `Label` — one constructor per populated shape). -/
inductive AOperand where
  | intOp (n : Int)
  | floatOp (q : Rat)
  | labelOp (s : String)
  deriving DecidableEq, Repr

/-- The `Number` field of the Go `Operand` struct (zero unless the operand
was parsed as an integer). -/
def AOperand.numberField : AOperand → Int
  | .intOp n => n
  | _ => 0

/-- A parsed statement (`parser.go`). -/
inductive AStmt where
  | labelStmt (name : String)
  | instrStmt (opcode : String) (operand : Option AOperand)
  deriving DecidableEq, Repr

/-- `parseOperand` on a number token: integer first, float on fallback. -/
def parseNumTok (s : String) : Except AsmErr AOperand :=
  match parseGoInt s.data with
  | some n => .ok (.intOp n)
  | none =>
    match parseGoFloat s.data with
    | some q => .ok (.floatOp q)
    | none => .error .parseBadNumber

/-- `Parser.skipNewlines`. -/
def dropNewlines : List Tok → List Tok
  | .newline :: ts => dropNewlines ts
  | ts => ts

/-- "Consume newline if present". -/
def consumeOptNewline : List Tok → List Tok
  | .newline :: ts => ts
  | ts => ts

/-- `Parser.Parse`, fuelled: a sequence of label-definition and
instruction statements, newline-separated. -/
def parseToks : Nat → List Tok → Except AsmErr (List AStmt)
  | 0, _ => .error .fuelExhausted
  | f + 1, ts =>
    match dropNewlines ts with
    | [] => .ok []
    | .eof :: _ => .ok []
    | .newline :: _ => .error .parseUnexpected
    | .labelDef s :: rest => do
      let stmts ← parseToks f (consumeOptNewline rest)
      return .labelStmt s :: stmts
    | .ident op :: rest =>
      match rest with
      | .newline :: r2 => do
        let stmts ← parseToks f r2
        return .instrStmt op none :: stmts
      | [] => do
        let stmts ← parseToks f rest
        return .instrStmt op none :: stmts
      | .eof :: _ => do
        let stmts ← parseToks f rest
        return .instrStmt op none :: stmts
      | .number sv :: r2 => do
        let o ← parseNumTok sv
        let stmts ← parseToks f (consumeOptNewline r2)
        return .instrStmt op (some o) :: stmts
      | .ident l :: r2 => do
        let stmts ← parseToks f (consumeOptNewline r2)
        return .instrStmt op (some (.labelOp l)) :: stmts
      | .labelDef _ :: _ => .error .parseUnexpected
    | .number _ :: _ => .error .parseUnexpected

/-- `Parser.Parse` on a token list. -/
def parseTokens (ts : List Tok) : Except AsmErr (List AStmt) :=
  parseToks (ts.length + 1) ts

/-- The `ProgramBuilder` state (`builder.go`): emitted instructions, the
label map (an association list whose head shadows older bindings, i.e. Go
map overwrite), and the unresolved references. -/
structure BuildState where
  instructions : List Inst
  labels : List (String × Nat)
  references : List (String × Nat)
  deriving Repr

/-- `NewProgramBuilder`. -/
def emptyBuild : BuildState := ⟨[], [], []⟩

/-- Appending one instruction (the shared body of the emit methods). -/
def bEmit (b : BuildState) (i : Inst) : BuildState :=
  { b with instructions := b.instructions ++ [i] }

/-- `ProgramBuilder.Label`: binds the name to the index of the next
instruction, silently overwriting any previous binding. -/
def bLabel (b : BuildState) (name : String) : BuildState :=
  { b with labels := (name, b.instructions.length) :: b.labels }

/-- `ProgramBuilder.Jmp`/`JmpZ`/`JmpNZ`/`Call`: emit a placeholder and
record an unresolved reference at the current instruction index. -/
def bJumpRef (b : BuildState) (opcode : Nat) (label : String) : BuildState :=
  { b with
    instructions := b.instructions ++ [⟨opcode, 0⟩],
    references := b.references ++ [(label, b.instructions.length)] }

/-- `makeOpcodeMap` from `assembler.go`. -/
def opcodeMap : List (String × Nat) :=
  [("PUSH", 0), ("PUSHI", 1), ("POP", 2), ("DUP", 3), ("SWAP", 4), ("OVER", 5),
   ("ROT", 6),
   ("ADD", 16), ("SUB", 17), ("MUL", 18), ("DIV", 19), ("MOD", 20), ("NEG", 21),
   ("ABS", 22), ("INC", 23), ("DEC", 24),
   ("AND", 32), ("OR", 33), ("NOT", 34), ("XOR", 35),
   ("EQ", 40), ("NE", 41), ("GT", 42), ("LT", 43), ("GE", 44), ("LE", 45),
   ("LOAD", 48), ("STORE", 49), ("LOADD", 50), ("STORED", 51),
   ("JMP", 56), ("JMPZ", 57), ("JMPNZ", 58), ("CALL", 59), ("RET", 60),
   ("HALT", 61), ("NOP", 62),
   ("SQRT", 64), ("SIN", 65), ("COS", 66), ("TAN", 67), ("ASIN", 68),
   ("ACOS", 69), ("ATAN", 70), ("ATAN2", 71), ("LOG", 72), ("LOG10", 73),
   ("EXP", 74), ("POW", 75), ("MIN", 76), ("MAX", 77), ("FLOOR", 78),
   ("CEIL", 79), ("ROUND", 80), ("TRUNC", 81)]

/-- `strings.ToUpper` on the ASCII mnemonics. -/
def toUpperStr (s : String) : String := String.mk (s.data.map Char.toUpper)

/-- `assembler.emitNoOperand`: the builder call per no-operand opcode.
`ASIN`/`ACOS`/`ATAN`/`ATAN2`, `LOG`/`LOG10`/`EXP`/`POW` and `TRUNC` return
"not yet implemented" errors in the source. -/
def emitNoOperand (b : BuildState) (op : Nat) : Except AsmErr BuildState :=
  match op with
  | 2 | 3 | 4 | 5 | 6
  | 16 | 17 | 18 | 19 | 20 | 21 | 22 | 23 | 24
  | 32 | 33 | 34 | 35
  | 40 | 41 | 42 | 43 | 44 | 45
  | 50 | 51
  | 60 | 61 | 62
  | 64 | 65 | 66 | 67
  | 76 | 77 | 78 | 79 | 80 => .ok (bEmit b ⟨op, 0⟩)
  | 68 | 69 | 70 | 71 => .error (.notImplemented op)
  | 72 | 73 | 74 | 75 => .error (.notImplemented op)
  | 81 => .error .notImplementedTrunc
  | _ =>
    if op ≥ 128 then .ok (bEmit b ⟨op, 0⟩)
    else .error (.requiresOperand op)

/-- `assembler.emitWithOperand`: the builder call per operand-taking
opcode.  `builder.Push` narrows a float constant through `int32(v)`
(truncation then wrapping); `PushInt`, `Load`, `Store` and `Custom` use the
Go `Operand.Number` field, which is zero when the literal parsed as a
float. -/
def emitWithOperand (b : BuildState) (op : Nat) (o : AOperand) : Except AsmErr BuildState :=
  match op with
  | 0 =>
    match o with
    | .labelOp _ => .error (.wrongOperandKind 0)
    | .floatOp q => .ok (bEmit b ⟨0, i32wrap (truncToInt q)⟩)
    | .intOp n => .ok (bEmit b ⟨0, i32wrap (truncToInt (n : Rat))⟩)
  | 1 =>
    match o with
    | .labelOp _ => .error (.wrongOperandKind 1)
    | _ => .ok (bEmit b ⟨1, i32wrap o.numberField⟩)
  | 48 =>
    match o with
    | .labelOp _ => .error (.wrongOperandKind 48)
    | _ => .ok (bEmit b ⟨48, i32wrap o.numberField⟩)
  | 49 =>
    match o with
    | .labelOp _ => .error (.wrongOperandKind 49)
    | _ => .ok (bEmit b ⟨49, i32wrap o.numberField⟩)
  | 56 =>
    match o with
    | .labelOp l => .ok (bJumpRef b 56 l)
    | _ => .error (.wrongOperandKind 56)
  | 57 =>
    match o with
    | .labelOp l => .ok (bJumpRef b 57 l)
    | _ => .error (.wrongOperandKind 57)
  | 58 =>
    match o with
    | .labelOp l => .ok (bJumpRef b 58 l)
    | _ => .error (.wrongOperandKind 58)
  | 59 =>
    match o with
    | .labelOp l => .ok (bJumpRef b 59 l)
    | _ => .error (.wrongOperandKind 59)
  | _ =>
    if op ≥ 128 then
      match o with
      | .labelOp _ => .error .customNeedsNumber
      | _ => .ok (bEmit b ⟨op, i32wrap o.numberField⟩)
    else .error (.noOperandAllowed op)

/-- `assembler.emitInstruction`: name lookup (standard table first, then
the registry-derived custom table), then emission. -/
def emitInstruction (customMap : List (String × Nat)) (b : BuildState)
    (opcode : String) (operand : Option AOperand) : Except AsmErr BuildState :=
  let name := toUpperStr opcode
  match opcodeMap.lookup name with
  | some op =>
    match operand with
    | none => emitNoOperand b op
    | some o => emitWithOperand b op o
  | none =>
    match customMap.lookup name with
    | some op =>
      match operand with
      | none => emitNoOperand b op
      | some o => emitWithOperand b op o
    | none => .error (.unknownOpcode opcode)

/-- `ProgramBuilder.Build`'s reference-resolution loop: substitute each
referenced label's bound address into the placeholder operand, failing on
an unbound name.  (References always index existing instructions by
construction; a stale index would leave the list unchanged.) -/
def resolveRefs (labels : List (String × Nat)) :
    List (String × Nat) → List Inst → Except AsmErr (List Inst)
  | [], instrs => .ok instrs
  | (name, idx) :: rest, instrs =>
    match labels.lookup name with
    | none => .error (.unresolvedLabel name)
    | some addr =>
      match instrs[idx]? with
      | some i => resolveRefs labels rest (instrs.set idx { i with operand := i32wrap addr })
      | none => resolveRefs labels rest instrs

/-- `assembler.generate`: process the statements through the builder, then
`Build`. -/
def generate (customMap : List (String × Nat)) (stmts : List AStmt) :
    Except AsmErr (List Inst) := do
  let b ← stmts.foldlM
    (fun b stmt =>
      match stmt with
      | .labelStmt n => .ok (bLabel b n)
      | .instrStmt op o => emitInstruction customMap b op o)
    emptyBuild
  resolveRefs b.labels b.references b.instructions

/-- `assembler.Assemble`: lex, parse, generate.  `registryNames` is the
registry's opcode-to-name map (`Names()`), from which the custom lookup
table is derived by uppercasing, as in `assembler.generate`; an assembler
without a registry passes `[]`. -/
def assemble (registryNames : List (Nat × String)) (src : String) :
    Except AsmErr (List Inst) := do
  let customMap := registryNames.map (fun p => (toUpperStr p.2, p.1))
  let toks ← tokenize src
  let stmts ← parseTokens toks
  generate customMap stmts

/-! ## Concrete instances used by the claim theorems and witnesses -/

/-- A concrete instantiation of the abstract `math.*` functions (used only
to instantiate theorems at concrete inputs; no claim depends on the
values). -/
def trivFloatOps : FloatOps :=
  ⟨fun _ => 0, fun _ => 0, fun _ => 0, fun _ => 0, fun _ => 0, fun _ => 0, fun _ => 0,
   fun _ _ => 0, fun _ => 0, fun _ => 0, fun _ => 0, fun _ _ => 0, fun _ _ => 0,
   fun _ _ => 0, fun _ => 0, fun _ => 0, fun _ => 0, fun _ => 0⟩

/-- The default configuration (`New()`): stack size 256, no limit, no
registry. -/
def baseConfig : VMConfig := ⟨256, 0, none⟩

/-- `ExecuteOptions{}`: no instruction limit, default stack depth. -/
def noLimits : ExecOpts := ⟨0, 0⟩

/-- The program `PUSH 1; PUSH 0; DIV; HALT` of spec scenario 4. -/
def divProg : List Inst := [⟨0, 1⟩, ⟨0, 0⟩, ⟨19, 0⟩, ⟨61, 0⟩]

/-- A custom handler that pushes two values through the execution
context. -/
def pushTwiceHandler : Handler :=
  fun _ => .push .nil (fun _ => .push .nil (fun _ => .done none))

/-- A registry binding opcode 128 to `pushTwiceHandler`. -/
def pushTwiceRegistry : Registry :=
  fun op => if op = 128 then some pushTwiceHandler else none

/-- A configuration with stack size 2 and the `pushTwiceRegistry`. -/
def pushTwiceConfig : VMConfig := ⟨2, 0, some pushTwiceRegistry⟩

/-- Execute options requesting `MaxStackDepth = 1`. -/
def depthOneOpts : ExecOpts := ⟨0, 1⟩

/-- The standard opcodes assigned by `instruction.go` (the cases of the
`executeInstruction` switch). -/
def standardOpcodeValues : List Nat :=
  [0, 1, 2, 3, 4, 5, 6,
   16, 17, 18, 19, 20, 21, 22, 23, 24,
   32, 33, 34, 35,
   40, 41, 42, 43, 44, 45,
   48, 49, 50, 51,
   56, 57, 58, 59, 60, 61, 62,
   64, 65, 66, 67, 68, 69, 70, 71, 72, 73, 74, 75, 76, 77, 78, 79, 80, 81]

/-- A program of 2^32 NOP instructions: its encoded count header wraps to
zero. -/
def bigProg : List Inst := List.replicate 4294967296 ⟨62, 0⟩

/-- The effective per-execution stack bound together with the context-push
bound: the interpreter's own pushes are limited by
`effMaxStackDepth cfg opts`, a custom handler's `Push` by
`cfg.stackSize`. -/
def stackBound (cfg : VMConfig) (maxD : Int) : Nat :=
  max maxD.toNat cfg.stackSize.toNat

/-! ## Codec lemmas -/

theorem length_encodeInst (i : Inst) : (encodeInst i).length = 5 := rfl

theorem length_flatMap_encodeInst (p : List Inst) :
    (p.flatMap encodeInst).length = 5 * p.length := by
  induction p with
  | nil => rfl
  | cons i p ih =>
    simp [List.flatMap_cons, length_encodeInst, ih]
    ring

theorem decodeU32LE_encodeU32LE (n : Nat) :
    decodeU32LE (n % 256) (n / 256 % 256) (n / 65536 % 256) (n / 16777216 % 256) =
      n % 2 ^ 32 := by
  unfold decodeU32LE
  omega

theorem i32ofNat_u32ofInt (x : Int) (h1 : -(2 ^ 31) ≤ x) (h2 : x < 2 ^ 31) :
    i32ofNat (u32ofInt x) = x := by
  unfold i32ofNat u32ofInt
  omega

theorem u32ofInt_lt (x : Int) : u32ofInt x < 2 ^ 32 := by
  unfold u32ofInt
  omega

theorem readInstrs_encoded (p : List Inst) (pre : List Nat)
    (wf : ∀ i ∈ p, WFInst i) :
    readInstrs (pre ++ p.flatMap encodeInst) pre.length p.length = .ok p := by
  induction p generalizing pre with
  | nil => rfl
  | cons i p ih =>
    have wfi := wf i (by simp)
    have wfp : ∀ j ∈ p, WFInst j := fun j hj => wf j (by simp [hj])
    show readInstrs (pre ++ (encodeInst i ++ p.flatMap encodeInst)) pre.length
        (p.length + 1) = .ok (i :: p)
    unfold readInstrs
    rw [show pre ++ (encodeInst i ++ p.flatMap encodeInst) =
        (pre ++ encodeInst i) ++ p.flatMap encodeInst by simp]
    have hdrop : ((pre ++ encodeInst i) ++ p.flatMap encodeInst).drop pre.length =
        encodeInst i ++ p.flatMap encodeInst := by
      rw [List.append_assoc, List.drop_left]
    rw [hdrop]
    show (match readInstrs _ (pre.length + 5) p.length with
      | .ok rest => Except.ok (⟨i.opcode,
          i32ofNat (decodeU32LE (u32ofInt i.operand % 256) (u32ofInt i.operand / 256 % 256)
            (u32ofInt i.operand / 65536 % 256) (u32ofInt i.operand / 16777216 % 256))⟩ :: rest)
      | .error e => Except.error e) = Except.ok (i :: p)
    have hrec : readInstrs ((pre ++ encodeInst i) ++ p.flatMap encodeInst)
        (pre.length + 5) p.length = .ok p := by
      have := ih (pre ++ encodeInst i) wfp
      rwa [List.length_append, length_encodeInst] at this
    rw [hrec]
    have hop : i32ofNat (decodeU32LE (u32ofInt i.operand % 256)
        (u32ofInt i.operand / 256 % 256) (u32ofInt i.operand / 65536 % 256)
        (u32ofInt i.operand / 16777216 % 256)) = i.operand := by
      rw [decodeU32LE_encodeU32LE, Nat.mod_eq_of_lt (u32ofInt_lt _),
        i32ofNat_u32ofInt i.operand wfi.2.1 wfi.2.2]
    rw [hop]

theorem decodeProgram_cons4 (b0 b1 b2 b3 : Nat) (rest : List Nat) :
    decodeProgram (b0 :: b1 :: b2 :: b3 :: rest) =
      if (b0 :: b1 :: b2 :: b3 :: rest).length % 2 ^ 32 ≠
          (4 + decodeU32LE b0 b1 b2 b3 * 5) % 2 ^ 32 then .error .invalidProgram
      else readInstrs (b0 :: b1 :: b2 :: b3 :: rest) 4 (decodeU32LE b0 b1 b2 b3) := by
  unfold decodeProgram
  rw [if_neg (by simp)]

/-- C1 (amended): for every program of fewer than 2^32 instructions — with
operands anywhere in the `int32` range — decoding is the exact left inverse
of encoding, and encoding `[PUSH 42, ADD]` yields exactly the 14 bytes
`02 00 00 00 00 2A 00 00 00 10 00 00 00 00`.  (At 2^32 instructions the
`uint32` count header wraps: see `c1_counterexample`.) -/
theorem c1_roundtrip_and_bytes :
    (∀ p : List Inst, (∀ i ∈ p, WFInst i) → p.length < 2 ^ 32 →
        decodeProgram (encodeProgram p) = .ok p) ∧
      encodeProgram [⟨0, 42⟩, ⟨16, 0⟩] =
        [2, 0, 0, 0, 0, 42, 0, 0, 0, 16, 0, 0, 0, 0] := by
  constructor
  · intro p wf hlen
    have henc : encodeProgram p =
        p.length % 256 :: p.length / 256 % 256 :: p.length / 65536 % 256 ::
          p.length / 16777216 % 256 :: p.flatMap encodeInst := rfl
    have h5 : (p.flatMap encodeInst).length = 5 * p.length :=
      length_flatMap_encodeInst p
    rw [henc, decodeProgram_cons4, decodeU32LE_encodeU32LE,
      Nat.mod_eq_of_lt hlen]
    rw [if_neg (by simp only [List.length_cons, h5, ne_eq, Decidable.not_not]; omega)]
    exact readInstrs_encoded p
      [p.length % 256, p.length / 256 % 256, p.length / 65536 % 256,
        p.length / 16777216 % 256] wf
  · rfl

/-- C1 (counterexample): at 2^32 instructions the encoded count header is
`uint32(2^32) = 0`, the `uint32` length check wraps and passes, and the
decoder returns the empty instruction vector — not the original program.
So `decode(encode(p)).instructions == p.instructions` fails for this `p`. -/
theorem c1_counterexample :
    decodeProgram (encodeProgram bigProg) = .ok [] ∧ bigProg ≠ [] := by
  have hlen : bigProg.length = 4294967296 := by
    show (List.replicate 4294967296 (⟨62, 0⟩ : Inst)).length = 4294967296
    rw [List.length_replicate]
  constructor
  · have henc : encodeProgram bigProg =
        0 :: 0 :: 0 :: 0 :: bigProg.flatMap encodeInst := by
      show encodeU32LE bigProg.length ++ _ = _
      rw [hlen]
      rfl
    have h5 : (bigProg.flatMap encodeInst).length = 5 * 4294967296 := by
      rw [length_flatMap_encodeInst, hlen]
    have hdec : decodeU32LE 0 0 0 0 = 0 := rfl
    have hcond : (0 :: 0 :: 0 :: 0 :: bigProg.flatMap encodeInst).length % 2 ^ 32 =
        (4 + decodeU32LE 0 0 0 0 * 5) % 2 ^ 32 := by
      rw [List.length_cons, List.length_cons, List.length_cons, List.length_cons,
        h5, hdec]
      norm_num
    rw [henc, decodeProgram_cons4, if_neg (fun hne => hne hcond)]
    rfl
  · intro h
    have hl := congrArg List.length h
    rw [hlen, List.length_nil] at hl
    exact absurd hl (by norm_num)

/-- C1 witness: the amended round-trip theorem applied to the concrete
two-instruction program (well-formed, of length `2 < 2^32`). -/
theorem c1_witness :
    decodeProgram (encodeProgram [⟨0, 42⟩, ⟨16, 0⟩]) = .ok [⟨0, 42⟩, ⟨16, 0⟩] :=
  c1_roundtrip_and_bytes.1 [⟨0, 42⟩, ⟨16, 0⟩] (by decide) (by norm_num)

/-- C8: a 5-byte buffer whose 4-byte count field is `0xCCCCCCCD =
3435973837` defeats the length validation — `4 + count*5` is computed in
`uint32` and wraps to exactly 5 — and the decode loop then indexes past the
end of the buffer: a Go runtime panic, not the documented
`ErrInvalidProgram`, although `5 ≠ 4 + 5·count` over the integers. -/
theorem c8_overflow_panics :
    decodeProgram [205, 204, 204, 204, 0] = .error .panicOOB ∧
      decodeU32LE 205 204 204 204 = 3435973837 ∧
      (5 : Nat) ≠ 4 + 3435973837 * 5 ∧
      (4 + 3435973837 * 5) % 2 ^ 32 = 5 := by
  refine ⟨rfl, rfl, by norm_num, by norm_num⟩

/-- C2 (counterexample): with `MaxStackDepth = 1` in the options (so the
effective limit is 1) and `StackSize = 2` in the config, a custom handler
that pushes twice through the execution context succeeds, and the
execution ends with stack depth 2 — past the effective limit.  Custom
`Push` checks `config.StackSize`, not the per-execution limit. -/
theorem c2_counterexample :
    effMaxStackDepth pushTwiceConfig depthOneOpts = 1 ∧
      (execute pushTwiceConfig trivFloatOps 10 freshState [⟨128, 0⟩] ⟨[]⟩
          depthOneOpts).map (fun x => x.1) =
        some ⟨1, 2, true, none⟩ := ⟨rfl, rfl⟩

/-- C4 (amended): `PUSH 1; PUSH 0; DIV; HALT` fails with the
`DivisionByZero` sentinel after 3 executed instructions at PC 2, but the
stack depth stored in the `Result` is 0, not 2: `opDiv` consumes both
operands before detecting the zero divisor. -/
theorem c4_div_by_zero_result :
    execute baseConfig trivFloatOps 10 freshState divProg ⟨[]⟩ noLimits =
      some (⟨3, 0, false, some (.sentinel .divisionByZero)⟩, ⟨[], 2, false, 3⟩, ⟨[]⟩) :=
  rfl

/-- C4 (counterexample): the reported stack depth for the
division-by-zero scenario is not the pre-fault depth 2. -/
theorem c4_counterexample :
    ¬ (execute baseConfig trivFloatOps 10 freshState divProg ⟨[]⟩ noLimits).map
        (fun x => x.1.stackDepth) = some 2 := by decide

/-- C3 (counterexample): the erroring execution of scenario 4 surfaces the
raw `ErrDivisionByZero` sentinel — not a `VMError` wrapper with an
execution-context record. -/
theorem c3_counterexample :
    (execute baseConfig trivFloatOps 10 freshState divProg ⟨[]⟩ noLimits).map
        (fun x => x.1.error.map GoError.isWrapped) = some (some false) := rfl

/-- C7 (counterexample): `JMP -1` drives the program counter negative; the
loop exits with no error, but the end-of-program fix-up only fires for
`pc ≥ len`, so the result's halted flag is `false`, not `true`. -/
theorem c7_counterexample :
    execute baseConfig trivFloatOps 10 freshState [⟨56, -1⟩] ⟨[]⟩ noLimits =
      some (⟨1, 0, false, none⟩, ⟨[], -1, false, 1⟩, ⟨[]⟩) := rfl

/-- C5: the spec's math mnemonics `ASIN ACOS ATAN ATAN2 LOG LOG10 EXP POW
TRUNC` are all rejected by `assembler.emitNoOperand` with "not yet
implemented" errors, even though `makeOpcodeMap` lists them and the
executor dispatches their opcodes; a mnemonic such as `SQRT` assembles
normally. -/
theorem c5_math_mnemonics_rejected :
    assemble [] "ASIN" = .error (.notImplemented 68) ∧
      assemble [] "ACOS" = .error (.notImplemented 69) ∧
      assemble [] "ATAN" = .error (.notImplemented 70) ∧
      assemble [] "ATAN2" = .error (.notImplemented 71) ∧
      assemble [] "LOG" = .error (.notImplemented 72) ∧
      assemble [] "LOG10" = .error (.notImplemented 73) ∧
      assemble [] "EXP" = .error (.notImplemented 74) ∧
      assemble [] "POW" = .error (.notImplemented 75) ∧
      assemble [] "TRUNC" = .error .notImplementedTrunc ∧
      assemble [] "SQRT" = .ok [⟨64, 0⟩] :=
  ⟨rfl, rfl, rfl, rfl, rfl, rfl, rfl, rfl, rfl, rfl⟩

/-- C6: a source defining the label `START` twice assembles without any
error; the duplicate definition silently rebinds the label, and the
`JMP START` resolves to the second binding (address 1), not the first
(address 0). -/
theorem c6_duplicate_label_silently_bound :
    assemble [] "START:\nPUSH 1\nSTART:\nJMP START" = .ok [⟨0, 1⟩, ⟨56, 1⟩] := rfl

/-! ## Stack-depth lemmas

Every standard opcode handler pops at least as many values as it pushes,
except the `executor.push`-based ones, which are bounded by the
per-execution limit; a custom handler's context `Push` is bounded by the
configured `StackSize`. -/

theorem len_opAdd (st : List Value) : (opAdd st).1.length ≤ st.length := by
  unfold opAdd
  split
  · split <;> simp <;> omega
  · simp

theorem len_opSub (st : List Value) : (opSub st).1.length ≤ st.length := by
  unfold opSub
  split
  · split <;> simp <;> omega
  · simp

theorem len_opMul (st : List Value) : (opMul st).1.length ≤ st.length := by
  unfold opMul
  split
  · split <;> simp <;> omega
  · simp

theorem len_opDiv (st : List Value) : (opDiv st).1.length ≤ st.length := by
  unfold opDiv
  split
  · split
    · simp
      omega
    · split
      · simp
        omega
      · split <;> simp <;> omega
  · simp

theorem len_opMod (st : List Value) : (opMod st).1.length ≤ st.length := by
  unfold opMod
  split
  · split
    · simp
      omega
    · split
      · simp
        omega
      · split <;> simp <;> omega
  · simp

theorem len_opNeg (st : List Value) : (opNeg st).1.length ≤ st.length := by
  unfold opNeg
  split
  · split <;> simp
  · simp

theorem len_opAbs (st : List Value) : (opAbs st).1.length ≤ st.length := by
  unfold opAbs
  split
  · split <;> simp
  · simp

theorem len_opInc (st : List Value) : (opInc st).1.length ≤ st.length := by
  unfold opInc
  split
  · split <;> simp
  · simp

theorem len_opDec (st : List Value) : (opDec st).1.length ≤ st.length := by
  unfold opDec
  split
  · split <;> simp
  · simp

theorem len_opAnd (st : List Value) : (opAnd st).1.length ≤ st.length := by
  unfold opAnd
  split <;> simp

theorem len_opOr (st : List Value) : (opOr st).1.length ≤ st.length := by
  unfold opOr
  split <;> simp

theorem len_opNot (st : List Value) : (opNot st).1.length ≤ st.length := by
  unfold opNot
  split <;> simp

theorem len_opXor (st : List Value) : (opXor st).1.length ≤ st.length := by
  unfold opXor
  split <;> simp

theorem len_opEq (st : List Value) : (opEq st).1.length ≤ st.length := by
  unfold opEq
  split <;> simp

theorem len_opNe (st : List Value) : (opNe st).1.length ≤ st.length := by
  unfold opNe
  split <;> simp

theorem len_cmpFloatOp (op : Rat → Rat → Bool) (st : List Value) :
    (cmpFloatOp op st).1.length ≤ st.length := by
  unfold cmpFloatOp
  split
  · split
    · simp
      omega
    · split <;> simp <;> omega
  · simp

theorem len_mathUnaryOp (op : Rat → Rat) (st : List Value) :
    (mathUnaryOp op st).1.length ≤ st.length := by
  unfold mathUnaryOp
  split
  · split <;> simp
  · simp

theorem len_mathBinOp (f : Value → Value → Except ErrKind Rat) (st : List Value) :
    (mathBinOp f st).1.length ≤ st.length := by
  unfold mathBinOp
  split
  · split <;> simp <;> omega
  · simp

theorem len_epush (maxD : Int) (v : Value) (st : List Value) (N : Nat)
    (h1 : st.length ≤ N) (h2 : maxD.toNat ≤ N) :
    (epush maxD v st).1.length ≤ N := by
  unfold epush
  split
  · exact h1
  · next hlt =>
    simp only [List.length_cons]
    omega

/-- Any interaction tree of a custom handler keeps the stack length at or
under `N`, provided `config.StackSize` (the context-push bound) is at most
`N`: the only growing operation is the context `Push`, which refuses once
the depth reaches `config.StackSize`. -/
theorem runHandler_stack_bound (cfg : VMConfig) (N : Nat)
    (hN : cfg.stackSize.toNat ≤ N) :
    ∀ (h : HProg) (s : ExecState) (m : Mem), s.stack.length ≤ N →
      ((runHandler cfg s m h).1.1).stack.length ≤ N := by
  intro h
  induction h with
  | done e => exact fun s m hs => hs
  | push v k ih =>
    intro s m hs
    simp only [runHandler]
    split
    · exact ih _ s m hs
    · next hlt =>
      refine ih _ _ m ?_
      simp only [List.length_cons]
      omega
  | pop k ih =>
    intro s m hs
    simp only [runHandler]
    split
    · exact ih _ s m hs
    · next v rest heq =>
      refine ih _ _ m ?_
      simp only
      rw [heq] at hs
      simp only [List.length_cons] at hs
      omega
  | peek k ih =>
    intro s m hs
    simp only [runHandler]
    split
    · exact ih _ s m hs
    · exact ih _ s m hs
  | peekN n k ih =>
    intro s m hs
    simp only [runHandler]
    split
    · exact ih _ s m hs
    · exact ih _ s m hs
  | depth k ih => exact fun s m hs => ih _ s m hs
  | getPC k ih => exact fun s m hs => ih _ s m hs
  | setPC t k ih => exact fun s m hs => ih { s with pc := t } m hs
  | jump t k ih => exact fun s m hs => ih { s with pc := t } m hs
  | memLoadOp i k ih => exact fun s m hs => ih _ s m hs
  | memStoreOp i v k ih => exact fun s m hs => ih _ s _ hs
  | memSize k ih => exact fun s m hs => ih _ s m hs
  | count k ih => exact fun s m hs => ih _ s m hs
  | incCount k ih =>
    exact fun s m hs => ih { s with instrCount := (s.instrCount + 1) % 2 ^ 32 } m hs
  | halt k ih => exact fun s m hs => ih { s with halted := true } m hs
  | isHalted k ih => exact fun s m hs => ih _ s m hs

theorem len_opGt (st : List Value) : (opGt st).1.length ≤ st.length :=
  len_cmpFloatOp _ st

theorem len_opLt (st : List Value) : (opLt st).1.length ≤ st.length :=
  len_cmpFloatOp _ st

theorem len_opGe (st : List Value) : (opGe st).1.length ≤ st.length :=
  len_cmpFloatOp _ st

theorem len_opLe (st : List Value) : (opLe st).1.length ≤ st.length :=
  len_cmpFloatOp _ st

theorem len_opAtan2 (fops : FloatOps) (st : List Value) :
    (opAtan2 fops st).1.length ≤ st.length := len_mathBinOp _ st

theorem len_opPow (fops : FloatOps) (st : List Value) :
    (opPow fops st).1.length ≤ st.length := len_mathBinOp _ st

theorem len_opMin (fops : FloatOps) (st : List Value) :
    (opMin fops st).1.length ≤ st.length := len_mathBinOp _ st

theorem len_opMax (fops : FloatOps) (st : List Value) :
    (opMax fops st).1.length ≤ st.length := len_mathBinOp _ st

theorem stackOpStep_bound (s : ExecState) (m : Mem) (r : List Value × Option ErrKind)
    {N : Nat} (h : r.1.length ≤ N) :
    ((stackOpStep s m r).1.1).stack.length ≤ N := h

set_option maxHeartbeats 4000000 in
/-- Dispatching one instruction cannot push the stack past
`stackBound cfg maxD = max maxD cfg.stackSize` (as a `Nat`): the
interpreter's own pushes are bounded by the effective limit `maxD`, a
custom handler's context pushes by `cfg.stackSize`, and every other path
only shrinks or rearranges the stack. -/
theorem execInstr_stack_bound (cfg : VMConfig) (fops : FloatOps) (inst : Inst)
    (maxD : Int) (s : ExecState) (m : Mem)
    (hs : s.stack.length ≤ stackBound cfg maxD) :
    ((executeInstruction cfg fops inst maxD s m).1.1).stack.length ≤
      stackBound cfg maxD := by
  have hmaxD : maxD.toNat ≤ stackBound cfg maxD := le_max_left _ _
  have hcfg : cfg.stackSize.toNat ≤ stackBound cfg maxD := le_max_right _ _
  unfold executeInstruction
  by_cases h0 : inst.opcode = 0
  · rw [if_pos h0]
    exact stackOpStep_bound _ _ _ (len_epush _ _ _ _ hs hmaxD)
  rw [if_neg h0]
  by_cases h1 : inst.opcode = 1
  · rw [if_pos h1]
    exact stackOpStep_bound _ _ _ (len_epush _ _ _ _ hs hmaxD)
  rw [if_neg h1]
  by_cases h2 : inst.opcode = 2
  · rw [if_pos h2]
    rcases hstk : s.stack with _ | ⟨v, rest⟩
    · exact hs
    · rw [hstk, List.length_cons] at hs
      show rest.length ≤ _
      omega
  rw [if_neg h2]
  by_cases h3 : inst.opcode = 3
  · rw [if_pos h3]
    rcases hstk : s.stack with _ | ⟨v, rest⟩
    · exact hs
    · rw [hstk] at hs
      exact stackOpStep_bound _ _ _ (len_epush _ _ _ _ hs hmaxD)
  rw [if_neg h3]
  by_cases h4 : inst.opcode = 4
  · rw [if_pos h4]
    rcases hstk : s.stack with _ | ⟨b, _ | ⟨a, rest⟩⟩
    · exact hs
    · exact hs
    · rw [hstk, List.length_cons, List.length_cons] at hs
      show (a :: b :: rest).length ≤ _
      rw [List.length_cons, List.length_cons]
      omega
  rw [if_neg h4]
  by_cases h5 : inst.opcode = 5
  · rw [if_pos h5]
    rcases hstk : s.stack with _ | ⟨b, _ | ⟨a, rest⟩⟩
    · exact hs
    · exact hs
    · rw [hstk] at hs
      exact stackOpStep_bound _ _ _ (len_epush _ _ _ _ hs hmaxD)
  rw [if_neg h5]
  by_cases h6 : inst.opcode = 6
  · rw [if_pos h6]
    rcases hstk : s.stack with _ | ⟨x0, _ | ⟨x1, _ | ⟨x2, rest⟩⟩⟩
    · exact hs
    · exact hs
    · exact hs
    · rw [hstk, List.length_cons, List.length_cons, List.length_cons] at hs
      show (x2 :: x0 :: x1 :: rest).length ≤ _
      rw [List.length_cons, List.length_cons, List.length_cons]
      omega
  rw [if_neg h6]
  by_cases h16 : inst.opcode = 16
  · rw [if_pos h16]
    exact stackOpStep_bound _ _ _ (Nat.le_trans (len_opAdd _) hs)
  rw [if_neg h16]
  by_cases h17 : inst.opcode = 17
  · rw [if_pos h17]
    exact stackOpStep_bound _ _ _ (Nat.le_trans (len_opSub _) hs)
  rw [if_neg h17]
  by_cases h18 : inst.opcode = 18
  · rw [if_pos h18]
    exact stackOpStep_bound _ _ _ (Nat.le_trans (len_opMul _) hs)
  rw [if_neg h18]
  by_cases h19 : inst.opcode = 19
  · rw [if_pos h19]
    exact stackOpStep_bound _ _ _ (Nat.le_trans (len_opDiv _) hs)
  rw [if_neg h19]
  by_cases h20 : inst.opcode = 20
  · rw [if_pos h20]
    exact stackOpStep_bound _ _ _ (Nat.le_trans (len_opMod _) hs)
  rw [if_neg h20]
  by_cases h21 : inst.opcode = 21
  · rw [if_pos h21]
    exact stackOpStep_bound _ _ _ (Nat.le_trans (len_opNeg _) hs)
  rw [if_neg h21]
  by_cases h22 : inst.opcode = 22
  · rw [if_pos h22]
    exact stackOpStep_bound _ _ _ (Nat.le_trans (len_opAbs _) hs)
  rw [if_neg h22]
  by_cases h23 : inst.opcode = 23
  · rw [if_pos h23]
    exact stackOpStep_bound _ _ _ (Nat.le_trans (len_opInc _) hs)
  rw [if_neg h23]
  by_cases h24 : inst.opcode = 24
  · rw [if_pos h24]
    exact stackOpStep_bound _ _ _ (Nat.le_trans (len_opDec _) hs)
  rw [if_neg h24]
  by_cases h32 : inst.opcode = 32
  · rw [if_pos h32]
    exact stackOpStep_bound _ _ _ (Nat.le_trans (len_opAnd _) hs)
  rw [if_neg h32]
  by_cases h33 : inst.opcode = 33
  · rw [if_pos h33]
    exact stackOpStep_bound _ _ _ (Nat.le_trans (len_opOr _) hs)
  rw [if_neg h33]
  by_cases h34 : inst.opcode = 34
  · rw [if_pos h34]
    exact stackOpStep_bound _ _ _ (Nat.le_trans (len_opNot _) hs)
  rw [if_neg h34]
  by_cases h35 : inst.opcode = 35
  · rw [if_pos h35]
    exact stackOpStep_bound _ _ _ (Nat.le_trans (len_opXor _) hs)
  rw [if_neg h35]
  by_cases h40 : inst.opcode = 40
  · rw [if_pos h40]
    exact stackOpStep_bound _ _ _ (Nat.le_trans (len_opEq _) hs)
  rw [if_neg h40]
  by_cases h41 : inst.opcode = 41
  · rw [if_pos h41]
    exact stackOpStep_bound _ _ _ (Nat.le_trans (len_opNe _) hs)
  rw [if_neg h41]
  by_cases h42 : inst.opcode = 42
  · rw [if_pos h42]
    exact stackOpStep_bound _ _ _ (Nat.le_trans (len_opGt _) hs)
  rw [if_neg h42]
  by_cases h43 : inst.opcode = 43
  · rw [if_pos h43]
    exact stackOpStep_bound _ _ _ (Nat.le_trans (len_opLt _) hs)
  rw [if_neg h43]
  by_cases h44 : inst.opcode = 44
  · rw [if_pos h44]
    exact stackOpStep_bound _ _ _ (Nat.le_trans (len_opGe _) hs)
  rw [if_neg h44]
  by_cases h45 : inst.opcode = 45
  · rw [if_pos h45]
    exact stackOpStep_bound _ _ _ (Nat.le_trans (len_opLe _) hs)
  rw [if_neg h45]
  by_cases h64 : inst.opcode = 64
  · rw [if_pos h64]
    exact stackOpStep_bound _ _ _ (Nat.le_trans (len_mathUnaryOp _ _) hs)
  rw [if_neg h64]
  by_cases h65 : inst.opcode = 65
  · rw [if_pos h65]
    exact stackOpStep_bound _ _ _ (Nat.le_trans (len_mathUnaryOp _ _) hs)
  rw [if_neg h65]
  by_cases h66 : inst.opcode = 66
  · rw [if_pos h66]
    exact stackOpStep_bound _ _ _ (Nat.le_trans (len_mathUnaryOp _ _) hs)
  rw [if_neg h66]
  by_cases h67 : inst.opcode = 67
  · rw [if_pos h67]
    exact stackOpStep_bound _ _ _ (Nat.le_trans (len_mathUnaryOp _ _) hs)
  rw [if_neg h67]
  by_cases h68 : inst.opcode = 68
  · rw [if_pos h68]
    exact stackOpStep_bound _ _ _ (Nat.le_trans (len_mathUnaryOp _ _) hs)
  rw [if_neg h68]
  by_cases h69 : inst.opcode = 69
  · rw [if_pos h69]
    exact stackOpStep_bound _ _ _ (Nat.le_trans (len_mathUnaryOp _ _) hs)
  rw [if_neg h69]
  by_cases h70 : inst.opcode = 70
  · rw [if_pos h70]
    exact stackOpStep_bound _ _ _ (Nat.le_trans (len_mathUnaryOp _ _) hs)
  rw [if_neg h70]
  by_cases h71 : inst.opcode = 71
  · rw [if_pos h71]
    exact stackOpStep_bound _ _ _ (Nat.le_trans (len_opAtan2 _ _) hs)
  rw [if_neg h71]
  by_cases h72 : inst.opcode = 72
  · rw [if_pos h72]
    exact stackOpStep_bound _ _ _ (Nat.le_trans (len_mathUnaryOp _ _) hs)
  rw [if_neg h72]
  by_cases h73 : inst.opcode = 73
  · rw [if_pos h73]
    exact stackOpStep_bound _ _ _ (Nat.le_trans (len_mathUnaryOp _ _) hs)
  rw [if_neg h73]
  by_cases h74 : inst.opcode = 74
  · rw [if_pos h74]
    exact stackOpStep_bound _ _ _ (Nat.le_trans (len_mathUnaryOp _ _) hs)
  rw [if_neg h74]
  by_cases h75 : inst.opcode = 75
  · rw [if_pos h75]
    exact stackOpStep_bound _ _ _ (Nat.le_trans (len_opPow _ _) hs)
  rw [if_neg h75]
  by_cases h76 : inst.opcode = 76
  · rw [if_pos h76]
    exact stackOpStep_bound _ _ _ (Nat.le_trans (len_opMin _ _) hs)
  rw [if_neg h76]
  by_cases h77 : inst.opcode = 77
  · rw [if_pos h77]
    exact stackOpStep_bound _ _ _ (Nat.le_trans (len_opMax _ _) hs)
  rw [if_neg h77]
  by_cases h78 : inst.opcode = 78
  · rw [if_pos h78]
    exact stackOpStep_bound _ _ _ (Nat.le_trans (len_mathUnaryOp _ _) hs)
  rw [if_neg h78]
  by_cases h79 : inst.opcode = 79
  · rw [if_pos h79]
    exact stackOpStep_bound _ _ _ (Nat.le_trans (len_mathUnaryOp _ _) hs)
  rw [if_neg h79]
  by_cases h80 : inst.opcode = 80
  · rw [if_pos h80]
    exact stackOpStep_bound _ _ _ (Nat.le_trans (len_mathUnaryOp _ _) hs)
  rw [if_neg h80]
  by_cases h81 : inst.opcode = 81
  · rw [if_pos h81]
    exact stackOpStep_bound _ _ _ (Nat.le_trans (len_mathUnaryOp _ _) hs)
  rw [if_neg h81]
  by_cases h48 : inst.opcode = 48
  · rw [if_pos h48]
    rcases hml : (memLoad m inst.operand).2 with _ | e
    · exact stackOpStep_bound _ _ _ (len_epush _ _ _ _ hs hmaxD)
    · exact hs
  rw [if_neg h48]
  by_cases h49 : inst.opcode = 49
  · rw [if_pos h49]
    rcases hstk : s.stack with _ | ⟨v, rest⟩
    · exact hs
    · rw [hstk, List.length_cons] at hs
      show rest.length ≤ _
      omega
  rw [if_neg h49]
  by_cases h50 : inst.opcode = 50
  · rw [if_pos h50]
    split
    · exact hs
    · split
      · simp_all <;> omega
      · split
        · simp_all <;> omega
        · refine stackOpStep_bound _ _ _ (len_epush _ _ _ _ ?_ hmaxD)
          simp_all <;> omega
  rw [if_neg h50]
  by_cases h51 : inst.opcode = 51
  · rw [if_pos h51]
    split
    · exact hs
    · split
      · simp_all <;> omega
      · split
        · simp_all <;> omega
        · simp_all <;> omega
  rw [if_neg h51]
  by_cases h56 : inst.opcode = 56
  · rw [if_pos h56]
    exact hs
  rw [if_neg h56]
  by_cases h57 : inst.opcode = 57
  · rw [if_pos h57]
    split
    · exact hs
    · split
      · simp_all <;> omega
      · simp_all <;> omega
  rw [if_neg h57]
  by_cases h58 : inst.opcode = 58
  · rw [if_pos h58]
    split
    · exact hs
    · split
      · simp_all <;> omega
      · simp_all <;> omega
  rw [if_neg h58]
  by_cases h59 : inst.opcode = 59
  · rw [if_pos h59]
    exact hs
  rw [if_neg h59]
  by_cases h60 : inst.opcode = 60
  · rw [if_pos h60]
    exact hs
  rw [if_neg h60]
  by_cases h61 : inst.opcode = 61
  · rw [if_pos h61]
    exact hs
  rw [if_neg h61]
  by_cases h62 : inst.opcode = 62
  · rw [if_pos h62]
    exact hs
  rw [if_neg h62]
  split
  · split
    · split
      · exact runHandler_stack_bound cfg _ hcfg _ _ _ hs
      · exact hs
    · exact hs
  · exact hs

/-- For an opcode outside the standard dispatch table, `executeInstruction`
falls through every case to the default arm (custom lookup or
`ErrInvalidOpcode`). -/
theorem executeInstruction_default (cfg : VMConfig) (fops : FloatOps) (inst : Inst)
    (maxD : Int) (s : ExecState) (m : Mem)
    (hmem : inst.opcode ∉ standardOpcodeValues) :
    executeInstruction cfg fops inst maxD s m =
      if inst.opcode ≥ 128 then
        match cfg.registry with
        | some reg =>
          match reg inst.opcode with
          | some h => runHandler cfg s m (h inst.operand)
          | none => ((s, m), some (.sentinel .invalidOpcode))
        | none => ((s, m), some (.sentinel .invalidOpcode))
      else ((s, m), some (.sentinel .invalidOpcode)) := by
  have hne : ∀ k, k ∈ standardOpcodeValues → ¬ inst.opcode = k :=
    fun k hk h => hmem (h ▸ hk)
  unfold executeInstruction
  rw [if_neg (hne 0 (by decide)), if_neg (hne 1 (by decide)), if_neg (hne 2 (by decide)), if_neg (hne 3 (by decide)), if_neg (hne 4 (by decide)), if_neg (hne 5 (by decide)), if_neg (hne 6 (by decide)), if_neg (hne 16 (by decide)), if_neg (hne 17 (by decide)), if_neg (hne 18 (by decide)), if_neg (hne 19 (by decide)), if_neg (hne 20 (by decide)), if_neg (hne 21 (by decide)), if_neg (hne 22 (by decide)), if_neg (hne 23 (by decide)), if_neg (hne 24 (by decide)), if_neg (hne 32 (by decide)), if_neg (hne 33 (by decide)), if_neg (hne 34 (by decide)), if_neg (hne 35 (by decide)), if_neg (hne 40 (by decide)), if_neg (hne 41 (by decide)), if_neg (hne 42 (by decide)), if_neg (hne 43 (by decide)), if_neg (hne 44 (by decide)), if_neg (hne 45 (by decide)), if_neg (hne 64 (by decide)), if_neg (hne 65 (by decide)), if_neg (hne 66 (by decide)), if_neg (hne 67 (by decide)), if_neg (hne 68 (by decide)), if_neg (hne 69 (by decide)), if_neg (hne 70 (by decide)), if_neg (hne 71 (by decide)), if_neg (hne 72 (by decide)), if_neg (hne 73 (by decide)), if_neg (hne 74 (by decide)), if_neg (hne 75 (by decide)), if_neg (hne 76 (by decide)), if_neg (hne 77 (by decide)), if_neg (hne 78 (by decide)), if_neg (hne 79 (by decide)), if_neg (hne 80 (by decide)), if_neg (hne 81 (by decide)), if_neg (hne 48 (by decide)), if_neg (hne 49 (by decide)), if_neg (hne 50 (by decide)), if_neg (hne 51 (by decide)), if_neg (hne 56 (by decide)), if_neg (hne 57 (by decide)), if_neg (hne 58 (by decide)), if_neg (hne 59 (by decide)), if_neg (hne 60 (by decide)), if_neg (hne 61 (by decide)), if_neg (hne 62 (by decide))]

theorem optMap_sentinel_isWrapped {o : Option ErrKind} {e : GoError}
    (h : o.map GoError.sentinel = some e) : e.isWrapped = false := by
  cases o with
  | none => exact Option.noConfusion h
  | some k =>
    cases h
    rfl

theorem sentinel_eq_isWrapped {k : ErrKind} {e : GoError}
    (h : some (GoError.sentinel k) = some e) : e.isWrapped = false := by
  cases h
  rfl

set_option maxHeartbeats 4000000 in
/-- With no registry configured, every error `executeInstruction` produces
is one of the raw sentinel errors — never the `VMError` wrapper. -/
theorem execInstr_err_sentinel (cfg : VMConfig) (fops : FloatOps) (inst : Inst)
    (maxD : Int) (s : ExecState) (m : Mem) (hreg : cfg.registry = none) :
    ∀ e, (executeInstruction cfg fops inst maxD s m).2 = some e →
      e.isWrapped = false := by
  unfold executeInstruction
  by_cases h0 : inst.opcode = 0
  · rw [if_pos h0]
    intro e he
    repeat' split at he
    all_goals
      first
      | exact optMap_sentinel_isWrapped he
      | exact sentinel_eq_isWrapped he
      | exact Option.noConfusion he
      | (exfalso; simp_all)
  rw [if_neg h0]
  by_cases h1 : inst.opcode = 1
  · rw [if_pos h1]
    intro e he
    repeat' split at he
    all_goals
      first
      | exact optMap_sentinel_isWrapped he
      | exact sentinel_eq_isWrapped he
      | exact Option.noConfusion he
      | (exfalso; simp_all)
  rw [if_neg h1]
  by_cases h2 : inst.opcode = 2
  · rw [if_pos h2]
    intro e he
    repeat' split at he
    all_goals
      first
      | exact optMap_sentinel_isWrapped he
      | exact sentinel_eq_isWrapped he
      | exact Option.noConfusion he
      | (exfalso; simp_all)
  rw [if_neg h2]
  by_cases h3 : inst.opcode = 3
  · rw [if_pos h3]
    intro e he
    repeat' split at he
    all_goals
      first
      | exact optMap_sentinel_isWrapped he
      | exact sentinel_eq_isWrapped he
      | exact Option.noConfusion he
      | (exfalso; simp_all)
  rw [if_neg h3]
  by_cases h4 : inst.opcode = 4
  · rw [if_pos h4]
    intro e he
    repeat' split at he
    all_goals
      first
      | exact optMap_sentinel_isWrapped he
      | exact sentinel_eq_isWrapped he
      | exact Option.noConfusion he
      | (exfalso; simp_all)
  rw [if_neg h4]
  by_cases h5 : inst.opcode = 5
  · rw [if_pos h5]
    intro e he
    repeat' split at he
    all_goals
      first
      | exact optMap_sentinel_isWrapped he
      | exact sentinel_eq_isWrapped he
      | exact Option.noConfusion he
      | (exfalso; simp_all)
  rw [if_neg h5]
  by_cases h6 : inst.opcode = 6
  · rw [if_pos h6]
    intro e he
    repeat' split at he
    all_goals
      first
      | exact optMap_sentinel_isWrapped he
      | exact sentinel_eq_isWrapped he
      | exact Option.noConfusion he
      | (exfalso; simp_all)
  rw [if_neg h6]
  by_cases h16 : inst.opcode = 16
  · rw [if_pos h16]
    intro e he
    repeat' split at he
    all_goals
      first
      | exact optMap_sentinel_isWrapped he
      | exact sentinel_eq_isWrapped he
      | exact Option.noConfusion he
      | (exfalso; simp_all)
  rw [if_neg h16]
  by_cases h17 : inst.opcode = 17
  · rw [if_pos h17]
    intro e he
    repeat' split at he
    all_goals
      first
      | exact optMap_sentinel_isWrapped he
      | exact sentinel_eq_isWrapped he
      | exact Option.noConfusion he
      | (exfalso; simp_all)
  rw [if_neg h17]
  by_cases h18 : inst.opcode = 18
  · rw [if_pos h18]
    intro e he
    repeat' split at he
    all_goals
      first
      | exact optMap_sentinel_isWrapped he
      | exact sentinel_eq_isWrapped he
      | exact Option.noConfusion he
      | (exfalso; simp_all)
  rw [if_neg h18]
  by_cases h19 : inst.opcode = 19
  · rw [if_pos h19]
    intro e he
    repeat' split at he
    all_goals
      first
      | exact optMap_sentinel_isWrapped he
      | exact sentinel_eq_isWrapped he
      | exact Option.noConfusion he
      | (exfalso; simp_all)
  rw [if_neg h19]
  by_cases h20 : inst.opcode = 20
  · rw [if_pos h20]
    intro e he
    repeat' split at he
    all_goals
      first
      | exact optMap_sentinel_isWrapped he
      | exact sentinel_eq_isWrapped he
      | exact Option.noConfusion he
      | (exfalso; simp_all)
  rw [if_neg h20]
  by_cases h21 : inst.opcode = 21
  · rw [if_pos h21]
    intro e he
    repeat' split at he
    all_goals
      first
      | exact optMap_sentinel_isWrapped he
      | exact sentinel_eq_isWrapped he
      | exact Option.noConfusion he
      | (exfalso; simp_all)
  rw [if_neg h21]
  by_cases h22 : inst.opcode = 22
  · rw [if_pos h22]
    intro e he
    repeat' split at he
    all_goals
      first
      | exact optMap_sentinel_isWrapped he
      | exact sentinel_eq_isWrapped he
      | exact Option.noConfusion he
      | (exfalso; simp_all)
  rw [if_neg h22]
  by_cases h23 : inst.opcode = 23
  · rw [if_pos h23]
    intro e he
    repeat' split at he
    all_goals
      first
      | exact optMap_sentinel_isWrapped he
      | exact sentinel_eq_isWrapped he
      | exact Option.noConfusion he
      | (exfalso; simp_all)
  rw [if_neg h23]
  by_cases h24 : inst.opcode = 24
  · rw [if_pos h24]
    intro e he
    repeat' split at he
    all_goals
      first
      | exact optMap_sentinel_isWrapped he
      | exact sentinel_eq_isWrapped he
      | exact Option.noConfusion he
      | (exfalso; simp_all)
  rw [if_neg h24]
  by_cases h32 : inst.opcode = 32
  · rw [if_pos h32]
    intro e he
    repeat' split at he
    all_goals
      first
      | exact optMap_sentinel_isWrapped he
      | exact sentinel_eq_isWrapped he
      | exact Option.noConfusion he
      | (exfalso; simp_all)
  rw [if_neg h32]
  by_cases h33 : inst.opcode = 33
  · rw [if_pos h33]
    intro e he
    repeat' split at he
    all_goals
      first
      | exact optMap_sentinel_isWrapped he
      | exact sentinel_eq_isWrapped he
      | exact Option.noConfusion he
      | (exfalso; simp_all)
  rw [if_neg h33]
  by_cases h34 : inst.opcode = 34
  · rw [if_pos h34]
    intro e he
    repeat' split at he
    all_goals
      first
      | exact optMap_sentinel_isWrapped he
      | exact sentinel_eq_isWrapped he
      | exact Option.noConfusion he
      | (exfalso; simp_all)
  rw [if_neg h34]
  by_cases h35 : inst.opcode = 35
  · rw [if_pos h35]
    intro e he
    repeat' split at he
    all_goals
      first
      | exact optMap_sentinel_isWrapped he
      | exact sentinel_eq_isWrapped he
      | exact Option.noConfusion he
      | (exfalso; simp_all)
  rw [if_neg h35]
  by_cases h40 : inst.opcode = 40
  · rw [if_pos h40]
    intro e he
    repeat' split at he
    all_goals
      first
      | exact optMap_sentinel_isWrapped he
      | exact sentinel_eq_isWrapped he
      | exact Option.noConfusion he
      | (exfalso; simp_all)
  rw [if_neg h40]
  by_cases h41 : inst.opcode = 41
  · rw [if_pos h41]
    intro e he
    repeat' split at he
    all_goals
      first
      | exact optMap_sentinel_isWrapped he
      | exact sentinel_eq_isWrapped he
      | exact Option.noConfusion he
      | (exfalso; simp_all)
  rw [if_neg h41]
  by_cases h42 : inst.opcode = 42
  · rw [if_pos h42]
    intro e he
    repeat' split at he
    all_goals
      first
      | exact optMap_sentinel_isWrapped he
      | exact sentinel_eq_isWrapped he
      | exact Option.noConfusion he
      | (exfalso; simp_all)
  rw [if_neg h42]
  by_cases h43 : inst.opcode = 43
  · rw [if_pos h43]
    intro e he
    repeat' split at he
    all_goals
      first
      | exact optMap_sentinel_isWrapped he
      | exact sentinel_eq_isWrapped he
      | exact Option.noConfusion he
      | (exfalso; simp_all)
  rw [if_neg h43]
  by_cases h44 : inst.opcode = 44
  · rw [if_pos h44]
    intro e he
    repeat' split at he
    all_goals
      first
      | exact optMap_sentinel_isWrapped he
      | exact sentinel_eq_isWrapped he
      | exact Option.noConfusion he
      | (exfalso; simp_all)
  rw [if_neg h44]
  by_cases h45 : inst.opcode = 45
  · rw [if_pos h45]
    intro e he
    repeat' split at he
    all_goals
      first
      | exact optMap_sentinel_isWrapped he
      | exact sentinel_eq_isWrapped he
      | exact Option.noConfusion he
      | (exfalso; simp_all)
  rw [if_neg h45]
  by_cases h64 : inst.opcode = 64
  · rw [if_pos h64]
    intro e he
    repeat' split at he
    all_goals
      first
      | exact optMap_sentinel_isWrapped he
      | exact sentinel_eq_isWrapped he
      | exact Option.noConfusion he
      | (exfalso; simp_all)
  rw [if_neg h64]
  by_cases h65 : inst.opcode = 65
  · rw [if_pos h65]
    intro e he
    repeat' split at he
    all_goals
      first
      | exact optMap_sentinel_isWrapped he
      | exact sentinel_eq_isWrapped he
      | exact Option.noConfusion he
      | (exfalso; simp_all)
  rw [if_neg h65]
  by_cases h66 : inst.opcode = 66
  · rw [if_pos h66]
    intro e he
    repeat' split at he
    all_goals
      first
      | exact optMap_sentinel_isWrapped he
      | exact sentinel_eq_isWrapped he
      | exact Option.noConfusion he
      | (exfalso; simp_all)
  rw [if_neg h66]
  by_cases h67 : inst.opcode = 67
  · rw [if_pos h67]
    intro e he
    repeat' split at he
    all_goals
      first
      | exact optMap_sentinel_isWrapped he
      | exact sentinel_eq_isWrapped he
      | exact Option.noConfusion he
      | (exfalso; simp_all)
  rw [if_neg h67]
  by_cases h68 : inst.opcode = 68
  · rw [if_pos h68]
    intro e he
    repeat' split at he
    all_goals
      first
      | exact optMap_sentinel_isWrapped he
      | exact sentinel_eq_isWrapped he
      | exact Option.noConfusion he
      | (exfalso; simp_all)
  rw [if_neg h68]
  by_cases h69 : inst.opcode = 69
  · rw [if_pos h69]
    intro e he
    repeat' split at he
    all_goals
      first
      | exact optMap_sentinel_isWrapped he
      | exact sentinel_eq_isWrapped he
      | exact Option.noConfusion he
      | (exfalso; simp_all)
  rw [if_neg h69]
  by_cases h70 : inst.opcode = 70
  · rw [if_pos h70]
    intro e he
    repeat' split at he
    all_goals
      first
      | exact optMap_sentinel_isWrapped he
      | exact sentinel_eq_isWrapped he
      | exact Option.noConfusion he
      | (exfalso; simp_all)
  rw [if_neg h70]
  by_cases h71 : inst.opcode = 71
  · rw [if_pos h71]
    intro e he
    repeat' split at he
    all_goals
      first
      | exact optMap_sentinel_isWrapped he
      | exact sentinel_eq_isWrapped he
      | exact Option.noConfusion he
      | (exfalso; simp_all)
  rw [if_neg h71]
  by_cases h72 : inst.opcode = 72
  · rw [if_pos h72]
    intro e he
    repeat' split at he
    all_goals
      first
      | exact optMap_sentinel_isWrapped he
      | exact sentinel_eq_isWrapped he
      | exact Option.noConfusion he
      | (exfalso; simp_all)
  rw [if_neg h72]
  by_cases h73 : inst.opcode = 73
  · rw [if_pos h73]
    intro e he
    repeat' split at he
    all_goals
      first
      | exact optMap_sentinel_isWrapped he
      | exact sentinel_eq_isWrapped he
      | exact Option.noConfusion he
      | (exfalso; simp_all)
  rw [if_neg h73]
  by_cases h74 : inst.opcode = 74
  · rw [if_pos h74]
    intro e he
    repeat' split at he
    all_goals
      first
      | exact optMap_sentinel_isWrapped he
      | exact sentinel_eq_isWrapped he
      | exact Option.noConfusion he
      | (exfalso; simp_all)
  rw [if_neg h74]
  by_cases h75 : inst.opcode = 75
  · rw [if_pos h75]
    intro e he
    repeat' split at he
    all_goals
      first
      | exact optMap_sentinel_isWrapped he
      | exact sentinel_eq_isWrapped he
      | exact Option.noConfusion he
      | (exfalso; simp_all)
  rw [if_neg h75]
  by_cases h76 : inst.opcode = 76
  · rw [if_pos h76]
    intro e he
    repeat' split at he
    all_goals
      first
      | exact optMap_sentinel_isWrapped he
      | exact sentinel_eq_isWrapped he
      | exact Option.noConfusion he
      | (exfalso; simp_all)
  rw [if_neg h76]
  by_cases h77 : inst.opcode = 77
  · rw [if_pos h77]
    intro e he
    repeat' split at he
    all_goals
      first
      | exact optMap_sentinel_isWrapped he
      | exact sentinel_eq_isWrapped he
      | exact Option.noConfusion he
      | (exfalso; simp_all)
  rw [if_neg h77]
  by_cases h78 : inst.opcode = 78
  · rw [if_pos h78]
    intro e he
    repeat' split at he
    all_goals
      first
      | exact optMap_sentinel_isWrapped he
      | exact sentinel_eq_isWrapped he
      | exact Option.noConfusion he
      | (exfalso; simp_all)
  rw [if_neg h78]
  by_cases h79 : inst.opcode = 79
  · rw [if_pos h79]
    intro e he
    repeat' split at he
    all_goals
      first
      | exact optMap_sentinel_isWrapped he
      | exact sentinel_eq_isWrapped he
      | exact Option.noConfusion he
      | (exfalso; simp_all)
  rw [if_neg h79]
  by_cases h80 : inst.opcode = 80
  · rw [if_pos h80]
    intro e he
    repeat' split at he
    all_goals
      first
      | exact optMap_sentinel_isWrapped he
      | exact sentinel_eq_isWrapped he
      | exact Option.noConfusion he
      | (exfalso; simp_all)
  rw [if_neg h80]
  by_cases h81 : inst.opcode = 81
  · rw [if_pos h81]
    intro e he
    repeat' split at he
    all_goals
      first
      | exact optMap_sentinel_isWrapped he
      | exact sentinel_eq_isWrapped he
      | exact Option.noConfusion he
      | (exfalso; simp_all)
  rw [if_neg h81]
  by_cases h48 : inst.opcode = 48
  · rw [if_pos h48]
    intro e he
    repeat' split at he
    all_goals
      first
      | exact optMap_sentinel_isWrapped he
      | exact sentinel_eq_isWrapped he
      | exact Option.noConfusion he
      | (exfalso; simp_all)
  rw [if_neg h48]
  by_cases h49 : inst.opcode = 49
  · rw [if_pos h49]
    intro e he
    repeat' split at he
    all_goals
      first
      | exact optMap_sentinel_isWrapped he
      | exact sentinel_eq_isWrapped he
      | exact Option.noConfusion he
      | (exfalso; simp_all)
  rw [if_neg h49]
  by_cases h50 : inst.opcode = 50
  · rw [if_pos h50]
    intro e he
    repeat' split at he
    all_goals
      first
      | exact optMap_sentinel_isWrapped he
      | exact sentinel_eq_isWrapped he
      | exact Option.noConfusion he
      | (exfalso; simp_all)
  rw [if_neg h50]
  by_cases h51 : inst.opcode = 51
  · rw [if_pos h51]
    intro e he
    repeat' split at he
    all_goals
      first
      | exact optMap_sentinel_isWrapped he
      | exact sentinel_eq_isWrapped he
      | exact Option.noConfusion he
      | (exfalso; simp_all)
  rw [if_neg h51]
  by_cases h56 : inst.opcode = 56
  · rw [if_pos h56]
    intro e he
    repeat' split at he
    all_goals
      first
      | exact optMap_sentinel_isWrapped he
      | exact sentinel_eq_isWrapped he
      | exact Option.noConfusion he
      | (exfalso; simp_all)
  rw [if_neg h56]
  by_cases h57 : inst.opcode = 57
  · rw [if_pos h57]
    intro e he
    repeat' split at he
    all_goals
      first
      | exact optMap_sentinel_isWrapped he
      | exact sentinel_eq_isWrapped he
      | exact Option.noConfusion he
      | (exfalso; simp_all)
  rw [if_neg h57]
  by_cases h58 : inst.opcode = 58
  · rw [if_pos h58]
    intro e he
    repeat' split at he
    all_goals
      first
      | exact optMap_sentinel_isWrapped he
      | exact sentinel_eq_isWrapped he
      | exact Option.noConfusion he
      | (exfalso; simp_all)
  rw [if_neg h58]
  by_cases h59 : inst.opcode = 59
  · rw [if_pos h59]
    intro e he
    repeat' split at he
    all_goals
      first
      | exact optMap_sentinel_isWrapped he
      | exact sentinel_eq_isWrapped he
      | exact Option.noConfusion he
      | (exfalso; simp_all)
  rw [if_neg h59]
  by_cases h60 : inst.opcode = 60
  · rw [if_pos h60]
    intro e he
    repeat' split at he
    all_goals
      first
      | exact optMap_sentinel_isWrapped he
      | exact sentinel_eq_isWrapped he
      | exact Option.noConfusion he
      | (exfalso; simp_all)
  rw [if_neg h60]
  by_cases h61 : inst.opcode = 61
  · rw [if_pos h61]
    intro e he
    repeat' split at he
    all_goals
      first
      | exact optMap_sentinel_isWrapped he
      | exact sentinel_eq_isWrapped he
      | exact Option.noConfusion he
      | (exfalso; simp_all)
  rw [if_neg h61]
  by_cases h62 : inst.opcode = 62
  · rw [if_pos h62]
    intro e he
    repeat' split at he
    all_goals
      first
      | exact optMap_sentinel_isWrapped he
      | exact sentinel_eq_isWrapped he
      | exact Option.noConfusion he
      | (exfalso; simp_all)
  rw [if_neg h62]
  intro e he
  rw [hreg] at he
  repeat' split at he
  all_goals
    first
    | exact optMap_sentinel_isWrapped he
    | exact sentinel_eq_isWrapped he
    | exact Option.noConfusion he
    | (exfalso; simp_all)

/-! ## Loop-level lemmas

These lift the per-instruction facts through `loopBody` and the fuelled
`executeLoop` to the whole of `execute`. -/

theorem executeLoop_succ (cfg : VMConfig) (fops : FloatOps) (instrs : List Inst)
    (maxI : Nat) (maxD : Int) (fuel : Nat) (s : ExecState) (m : Mem) :
    executeLoop cfg fops instrs maxI maxD (fuel + 1) s m =
      match loopBody cfg fops instrs maxI maxD s m with
      | .ret r s' m' => some (r, s', m')
      | .next s' m' => executeLoop cfg fops instrs maxI maxD fuel s' m' := rfl

theorem loopBody_ret_bound (cfg : VMConfig) (fops : FloatOps) (instrs : List Inst)
    (maxI : Nat) (maxD : Int) (s : ExecState) (m : Mem) (r : GoResult)
    (s' : ExecState) (m' : Mem)
    (hs : s.stack.length ≤ stackBound cfg maxD)
    (h : loopBody cfg fops instrs maxI maxD s m = .ret r s' m') :
    r.stackDepth ≤ stackBound cfg maxD ∧ s'.stack.length ≤ stackBound cfg maxD := by
  unfold loopBody at h
  split at h
  · split at h
    · cases h
      exact ⟨hs, hs⟩
    · split at h
      · rename_i s0 m0 e0 heq
        cases h
        have hb := execInstr_stack_bound cfg fops (instrs.getD s.pc.toNat ⟨62, 0⟩) maxD
          { s with instrCount := (s.instrCount + 1) % 2 ^ 32 } m hs
        rw [heq] at hb
        exact ⟨hb, hb⟩
      · exact LoopOut.noConfusion h
  · split at h
    · cases h
      exact ⟨hs, hs⟩
    · cases h
      exact ⟨hs, hs⟩

theorem loopBody_next_bound (cfg : VMConfig) (fops : FloatOps) (instrs : List Inst)
    (maxI : Nat) (maxD : Int) (s : ExecState) (m : Mem) (s' : ExecState) (m' : Mem)
    (hs : s.stack.length ≤ stackBound cfg maxD)
    (h : loopBody cfg fops instrs maxI maxD s m = .next s' m') :
    s'.stack.length ≤ stackBound cfg maxD := by
  unfold loopBody at h
  split at h
  · split at h
    · exact LoopOut.noConfusion h
    · split at h
      · exact LoopOut.noConfusion h
      · rename_i s0 m0 heq
        cases h
        have hb := execInstr_stack_bound cfg fops (instrs.getD s.pc.toNat ⟨62, 0⟩) maxD
          { s with instrCount := (s.instrCount + 1) % 2 ^ 32 } m hs
        rw [heq] at hb
        split
        · exact hb
        · exact hb
  · split at h
    · exact LoopOut.noConfusion h
    · exact LoopOut.noConfusion h

theorem executeLoop_stack_bound (cfg : VMConfig) (fops : FloatOps) (instrs : List Inst)
    (maxI : Nat) (maxD : Int) :
    ∀ (fuel : Nat) (s : ExecState) (m : Mem),
      s.stack.length ≤ stackBound cfg maxD →
      ∀ (r : GoResult) (s' : ExecState) (m' : Mem),
        executeLoop cfg fops instrs maxI maxD fuel s m = some (r, s', m') →
        r.stackDepth ≤ stackBound cfg maxD ∧ s'.stack.length ≤ stackBound cfg maxD := by
  intro fuel
  induction fuel with
  | zero =>
    intro s m _ r s' m' h
    exact Option.noConfusion h
  | succ fuel ih =>
    intro s m hs r s' m' h
    cases hlb : loopBody cfg fops instrs maxI maxD s m with
    | ret r0 s0 m0 =>
      have h2 : some (r0, s0, m0) = some (r, s', m') := by
        rw [executeLoop_succ, hlb] at h
        exact h
      simp only [Option.some.injEq, Prod.mk.injEq] at h2
      obtain ⟨rfl, rfl, rfl⟩ := h2
      exact loopBody_ret_bound cfg fops instrs maxI maxD s m r0 s0 m0 hs hlb
    | next s0 m0 =>
      have h2 : executeLoop cfg fops instrs maxI maxD fuel s0 m0 = some (r, s', m') := by
        rw [executeLoop_succ, hlb] at h
        exact h
      exact ih s0 m0 (loopBody_next_bound cfg fops instrs maxI maxD s m s0 m0 hs hlb)
        r s' m' h2

/-- C2 (amended): for every execution of `Execute`, the reported stack depth and
the final stack length are bounded by `max MaxStackDepth Config.StackSize`
(where `MaxStackDepth` is the effective per-execution limit): standard opcodes
enforce the per-execution limit, while a custom handler's `Push` only checks
`Config.StackSize`, so the per-execution limit alone is not an invariant. -/
theorem c2_stack_bound_amended (cfg : VMConfig) (fops : FloatOps) (fuel : Nat)
    (s : ExecState) (prog : List Inst) (m : Mem) (opts : ExecOpts)
    (r : GoResult) (s' : ExecState) (m' : Mem)
    (h : execute cfg fops fuel s prog m opts = some (r, s', m')) :
    r.stackDepth ≤ stackBound cfg (effMaxStackDepth cfg opts) ∧
      s'.stack.length ≤ stackBound cfg (effMaxStackDepth cfg opts) :=
  executeLoop_stack_bound cfg fops prog (effMaxInstructions cfg opts)
    (effMaxStackDepth cfg opts) fuel
    { s with stack := [], pc := 0, halted := false, instrCount := 0 } m
    (Nat.zero_le _) r s' m' h

/-- Witness for C2: the amended bound holds at the custom-handler scenario of
the counterexample (result depth 2 is within `max 1 2 = 2`). -/
theorem c2_witness :
    (⟨1, 2, true, none⟩ : GoResult).stackDepth ≤
        stackBound pushTwiceConfig (effMaxStackDepth pushTwiceConfig depthOneOpts) ∧
      ((⟨[.nil, .nil], 1, true, 1⟩ : ExecState)).stack.length ≤
        stackBound pushTwiceConfig (effMaxStackDepth pushTwiceConfig depthOneOpts) :=
  c2_stack_bound_amended pushTwiceConfig trivFloatOps 10 freshState [⟨128, 0⟩] ⟨[]⟩
    depthOneOpts ⟨1, 2, true, none⟩ ⟨[.nil, .nil], 1, true, 1⟩ ⟨[]⟩ rfl

theorem loopBody_err_sentinel (cfg : VMConfig) (fops : FloatOps) (instrs : List Inst)
    (maxI : Nat) (maxD : Int) (s : ExecState) (m : Mem) (r : GoResult)
    (s' : ExecState) (m' : Mem) (hreg : cfg.registry = none)
    (h : loopBody cfg fops instrs maxI maxD s m = .ret r s' m') :
    ∀ e, r.error = some e → e.isWrapped = false := by
  unfold loopBody at h
  split at h
  · split at h
    · cases h
      intro e he
      injection he with he2
      subst he2
      rfl
    · split at h
      · rename_i s0 m0 e0 heq
        cases h
        intro e he
        injection he with he2
        subst he2
        exact execInstr_err_sentinel cfg fops (instrs.getD s.pc.toNat ⟨62, 0⟩) maxD
          { s with instrCount := (s.instrCount + 1) % 2 ^ 32 } m hreg e0 (by rw [heq])
      · exact LoopOut.noConfusion h
  · split at h
    · cases h
      intro e he
      exact Option.noConfusion he
    · cases h
      intro e he
      exact Option.noConfusion he

theorem executeLoop_err_sentinel (cfg : VMConfig) (fops : FloatOps) (instrs : List Inst)
    (maxI : Nat) (maxD : Int) (hreg : cfg.registry = none) :
    ∀ (fuel : Nat) (s : ExecState) (m : Mem) (r : GoResult) (s' : ExecState) (m' : Mem),
      executeLoop cfg fops instrs maxI maxD fuel s m = some (r, s', m') →
      ∀ e, r.error = some e → e.isWrapped = false := by
  intro fuel
  induction fuel with
  | zero =>
    intro s m r s' m' h
    exact Option.noConfusion h
  | succ fuel ih =>
    intro s m r s' m' h
    cases hlb : loopBody cfg fops instrs maxI maxD s m with
    | ret r0 s0 m0 =>
      have h2 : some (r0, s0, m0) = some (r, s', m') := by
        rw [executeLoop_succ, hlb] at h
        exact h
      simp only [Option.some.injEq, Prod.mk.injEq] at h2
      obtain ⟨rfl, rfl, rfl⟩ := h2
      exact loopBody_err_sentinel cfg fops instrs maxI maxD s m r0 s0 m0 hreg hlb
    | next s0 m0 =>
      have h2 : executeLoop cfg fops instrs maxI maxD fuel s0 m0 = some (r, s', m') := by
        rw [executeLoop_succ, hlb] at h
        exact h
      exact ih s0 m0 r s' m' h2

/-- C3 (amended): when no instruction registry is configured, every error an
execution ends with is one of the raw sentinel errors (`GoError.isWrapped` is
`false`): `Execute` returns the `err` from the loop without constructing a
`VMError` wrapper, so no execution-context record is attached. -/
theorem c3_errors_unwrapped_amended (cfg : VMConfig) (fops : FloatOps) (fuel : Nat)
    (s : ExecState) (prog : List Inst) (m : Mem) (opts : ExecOpts)
    (r : GoResult) (s' : ExecState) (m' : Mem)
    (hreg : cfg.registry = none)
    (h : execute cfg fops fuel s prog m opts = some (r, s', m')) :
    ∀ e, r.error = some e → e.isWrapped = false :=
  executeLoop_err_sentinel cfg fops prog (effMaxInstructions cfg opts)
    (effMaxStackDepth cfg opts) hreg fuel
    { s with stack := [], pc := 0, halted := false, instrCount := 0 } m r s' m' h

/-- Witness for C3: the division-by-zero run ends with the unwrapped sentinel
`divisionByZero`. -/
theorem c3_witness :
    (GoError.sentinel .divisionByZero).isWrapped = false :=
  c3_errors_unwrapped_amended baseConfig trivFloatOps 10 freshState divProg ⟨[]⟩
    noLimits ⟨3, 0, false, some (.sentinel .divisionByZero)⟩ ⟨[], 2, false, 3⟩ ⟨[]⟩
    rfl rfl (.sentinel .divisionByZero) rfl

theorem loopBody_noerr_halt (cfg : VMConfig) (fops : FloatOps) (instrs : List Inst)
    (maxI : Nat) (maxD : Int) (s : ExecState) (m : Mem) (r : GoResult)
    (s' : ExecState) (m' : Mem)
    (h : loopBody cfg fops instrs maxI maxD s m = .ret r s' m')
    (herr : r.error = none) :
    r.halted = true ∨ s'.pc < 0 := by
  unfold loopBody at h
  split at h
  · split at h
    · cases h
      exact Option.noConfusion herr
    · split at h
      · cases h
        exact Option.noConfusion herr
      · exact LoopOut.noConfusion h
  · rename_i hcond
    split at h
    · cases h
      exact Or.inl rfl
    · rename_i hcond2
      cases h
      by_cases hh : s.halted = true
      · exact Or.inl hh
      · have hb : s.halted = false := by
          revert hh
          cases s.halted <;> simp
        by_cases hpc : (0 : Int) ≤ s.pc
        · exfalso
          exact hcond2 ⟨by simp [hb],
            not_lt.mp (fun hlt => hcond ⟨by simp [hb], hpc, hlt⟩)⟩
        · exact Or.inr (by omega)

theorem executeLoop_noerr_halt (cfg : VMConfig) (fops : FloatOps) (instrs : List Inst)
    (maxI : Nat) (maxD : Int) :
    ∀ (fuel : Nat) (s : ExecState) (m : Mem) (r : GoResult) (s' : ExecState) (m' : Mem),
      executeLoop cfg fops instrs maxI maxD fuel s m = some (r, s', m') →
      r.error = none → r.halted = true ∨ s'.pc < 0 := by
  intro fuel
  induction fuel with
  | zero =>
    intro s m r s' m' h
    exact Option.noConfusion h
  | succ fuel ih =>
    intro s m r s' m' h
    cases hlb : loopBody cfg fops instrs maxI maxD s m with
    | ret r0 s0 m0 =>
      have h2 : some (r0, s0, m0) = some (r, s', m') := by
        rw [executeLoop_succ, hlb] at h
        exact h
      simp only [Option.some.injEq, Prod.mk.injEq] at h2
      obtain ⟨rfl, rfl, rfl⟩ := h2
      exact loopBody_noerr_halt cfg fops instrs maxI maxD s m r0 s0 m0 hlb
    | next s0 m0 =>
      have h2 : executeLoop cfg fops instrs maxI maxD fuel s0 m0 = some (r, s', m') := by
        rw [executeLoop_succ, hlb] at h
        exact h
      exact ih s0 m0 r s' m' h2

/-- C7 (amended): an execution that ends without an error ends with the halted
flag set, unless the program counter is negative: the post-loop fix-up
`if !halted ∧ pc ≥ len` only covers overshooting past the end, so a jump to a
negative address terminates with `Halted = false`. -/
theorem c7_noerr_halt_amended (cfg : VMConfig) (fops : FloatOps) (fuel : Nat)
    (s : ExecState) (prog : List Inst) (m : Mem) (opts : ExecOpts)
    (r : GoResult) (s' : ExecState) (m' : Mem)
    (h : execute cfg fops fuel s prog m opts = some (r, s', m'))
    (herr : r.error = none) :
    r.halted = true ∨ s'.pc < 0 :=
  executeLoop_noerr_halt cfg fops prog (effMaxInstructions cfg opts)
    (effMaxStackDepth cfg opts) fuel
    { s with stack := [], pc := 0, halted := false, instrCount := 0 } m r s' m' h herr

/-- Witness for C7: running the one-instruction program `HALT` ends without an
error and with the halted flag set. -/
theorem c7_witness :
    (⟨1, 0, true, none⟩ : GoResult).halted = true ∨
      ((⟨[], 0, true, 1⟩ : ExecState)).pc < 0 :=
  c7_noerr_halt_amended baseConfig trivFloatOps 10 freshState [⟨61, 0⟩] ⟨[]⟩ noLimits
    ⟨1, 0, true, none⟩ ⟨[], 0, true, 1⟩ ⟨[]⟩ rfl rfl

/-- C9: executing an instruction whose opcode is in the standard range
(below 128) but not assigned to any defined operation returns the
`invalidOpcode` sentinel and leaves the state and memory untouched, whatever
registry the configuration carries. -/
theorem c9_invalid_opcode (cfg : VMConfig) (fops : FloatOps) (inst : Inst)
    (maxD : Int) (s : ExecState) (m : Mem)
    (h1 : inst.opcode < 128) (h2 : inst.opcode ∉ standardOpcodeValues) :
    executeInstruction cfg fops inst maxD s m =
      ((s, m), some (.sentinel .invalidOpcode)) := by
  rw [executeInstruction_default cfg fops inst maxD s m h2, if_neg (by omega)]

/-- Witness for C9: opcode 7 is rejected even with a registry configured. -/
theorem c9_witness :
    executeInstruction pushTwiceConfig trivFloatOps ⟨7, 0⟩ 0 freshState ⟨[]⟩ =
      ((freshState, ⟨[]⟩), some (.sentinel .invalidOpcode)) :=
  c9_invalid_opcode pushTwiceConfig trivFloatOps ⟨7, 0⟩ 0 freshState ⟨[]⟩
    (by decide) (by decide)

/-- C10: `Execute` re-initializes the stack, program counter, halted flag and
instruction counter on entry, so running any program on a previously used
executor state gives exactly the same outcome (result, final state and memory)
as running it on a freshly constructed one. -/
theorem c10_execute_resets (cfg : VMConfig) (fops : FloatOps) (fuel : Nat)
    (s : ExecState) (prog : List Inst) (m : Mem) (opts : ExecOpts) :
    execute cfg fops fuel s prog m opts =
      execute cfg fops fuel freshState prog m opts := rfl

end StackVM
